import Mathlib

/-!
Verification development for the RV32I verification-oracle repository
(`sw/rv32i_tests_gen.py`, `test/rv32i_tests_gen.py`, `test/check_log.py`,
`test/trace_diff.py`, `test/check_redirect.py`, `sw/hex2trace.py`).

The Python sources are shallowly embedded: Python unbounded integers become
`Nat`/`Int` (Python's `x & ((1 << k) - 1)` on a possibly negative `x` is the
Euclidean remainder `x % 2^k`; `x >> n` on a negative `x` is floor division
by `2^n`; bitwise `&`, `|`, `^` on negative operands are the two's-complement
operations `Int.land`, `Int.lor`, `Int.xor`); Python dicts used as sparse
byte memories become update functions `Nat → Nat`; Python lists become
`List`; functions that `raise` return `Option`/`Except`.
-/

set_option maxHeartbeats 1000000

namespace RV

def mask (n : Int) (bits : Nat) : Nat := (Int.land n ((2 : Int) ^ bits - 1)).toNat

def encode_R (opcode rd funct3 rs1 rs2 funct7 : Int) : Nat :=
  (mask funct7 7 <<< 25) ||| (mask rs2 5 <<< 20) ||| (mask rs1 5 <<< 15) |||
    (mask funct3 3 <<< 12) ||| (mask rd 5 <<< 7) ||| mask opcode 7

def encode_I (opcode rd funct3 rs1 imm : Int) : Nat :=
  (mask imm 12 <<< 20) ||| (mask rs1 5 <<< 15) ||| (mask funct3 3 <<< 12) |||
    (mask rd 5 <<< 7) ||| mask opcode 7

def encode_U (opcode rd imm20 : Int) : Nat :=
  (mask imm20 20 <<< 12) ||| (mask rd 5 <<< 7) ||| mask opcode 7

/-- Branch encoding: `imm13` is a signed byte offset (must be even). -/
def encode_B (opcode funct3 rs1 rs2 imm13 : Int) : Nat :=
  let imm := mask imm13 13
  let imm_12 := (imm >>> 12) &&& 0x1
  let imm_10_5 := (imm >>> 5) &&& 0x3F
  let imm_4_1 := (imm >>> 1) &&& 0xF
  let imm_11 := (imm >>> 11) &&& 0x1
  (imm_12 <<< 31) ||| (imm_10_5 <<< 25) ||| (mask rs2 5 <<< 20) ||| (mask rs1 5 <<< 15) |||
    (mask funct3 3 <<< 12) ||| (imm_4_1 <<< 8) ||| (imm_11 <<< 7) ||| mask opcode 7

/-- JAL encoding: `imm21` is a signed byte offset (must be even). -/
def encode_J (opcode rd imm21 : Int) : Nat :=
  let imm := mask imm21 21
  let imm_20 := (imm >>> 20) &&& 0x1
  let imm_10_1 := (imm >>> 1) &&& 0x3FF
  let imm_11 := (imm >>> 11) &&& 0x1
  let imm_19_12 := (imm >>> 12) &&& 0xFF
  (imm_20 <<< 31) ||| (imm_10_1 <<< 21) ||| (imm_11 <<< 20) ||| (imm_19_12 <<< 12) |||
    (mask rd 5 <<< 7) ||| mask opcode 7

/-- S-type (store) encoding. -/
def encode_S (opcode funct3 rs1 rs2 imm12 : Int) : Nat :=
  let imm := mask imm12 12
  let imm_11_5 := (imm >>> 5) &&& 0x7F
  let imm_4_0 := imm &&& 0x1F
  (imm_11_5 <<< 25) ||| (mask rs2 5 <<< 20) ||| (mask rs1 5 <<< 15) |||
    (mask funct3 3 <<< 12) ||| (imm_4_0 <<< 7) ||| mask opcode 7

/-- Sign extension helper: mask to `bits` bits, then flip around the sign bit. -/
def sext (val : Int) (bits : Nat) : Int :=
  let v := mask val bits
  ((v ^^^ 2 ^ (bits - 1) : Nat) : Int) - (2 : Int) ^ (bits - 1)

def u32 (x : Int) : Nat := (Int.land x 0xFFFFFFFF).toNat

def s32 (x : Int) : Int :=
  let n := u32 x
  if n &&& 0x80000000 ≠ 0 then (n : Int) - 0x100000000 else (n : Int)

def imm_i (inst : Nat) : Int := sext (inst >>> 20) 12

def imm_s (inst : Nat) : Int :=
  let imm := ((inst >>> 25) <<< 5) ||| ((inst >>> 7) &&& 0x1F)
  sext imm 12

def imm_b (inst : Nat) : Int :=
  let imm := (((inst >>> 31) &&& 0x1) <<< 12) ||| (((inst >>> 7) &&& 0x1) <<< 11) |||
    (((inst >>> 25) &&& 0x3F) <<< 5) ||| (((inst >>> 8) &&& 0xF) <<< 1)
  sext imm 13

def imm_u (inst : Nat) : Nat := inst &&& 0xFFFFF000

def imm_j (inst : Nat) : Int :=
  let imm := (((inst >>> 31) &&& 0x1) <<< 20) ||| (((inst >>> 12) &&& 0xFF) <<< 12) |||
    (((inst >>> 20) &&& 0x1) <<< 11) ||| (((inst >>> 21) &&& 0x3FF) <<< 1)
  sext imm 21

/-! ### Decoder/Classifier (`sw/rv32i_tests_gen.py`, `decode_word`)

`Meta` mirrors the `Meta` dataclass. `decode_word` returns `none` where the
source raises `RuntimeError`; the disassembly string (second component of the
source's return pair) is omitted, as no claim concerns it. The source's
`opmap.get` dictionaries become if-chains on `funct3`, and the tuple test
`key == (funct7, funct3)` becomes the conjunction of the two equalities. -/

structure Meta where
  op : String
  rd : Nat := 0
  rs1 : Nat := 0
  rs2 : Nat := 0
  imm : Int := 0
  target_pc : Option Int := none
deriving Repr, DecidableEq

/-- `opcode = inst & 0x7F`, as extracted at the top of both `decode_word`
(`sw/rv32i_tests_gen.py`) and `decode` (`test/check_log.py`). -/
def opcode_of (inst : Nat) : Nat := inst &&& 0x7F

/-- `rd = (inst >> 7) & 0x1F`. -/
def rd_of (inst : Nat) : Nat := (inst >>> 7) &&& 0x1F

/-- `funct3 = (inst >> 12) & 0x7`. -/
def funct3_of (inst : Nat) : Nat := (inst >>> 12) &&& 0x7

/-- `rs1 = (inst >> 15) & 0x1F`. -/
def rs1_of (inst : Nat) : Nat := (inst >>> 15) &&& 0x1F

/-- `rs2 = (inst >> 20) & 0x1F`. -/
def rs2_of (inst : Nat) : Nat := (inst >>> 20) &&& 0x1F

/-- `funct7 = (inst >> 25) & 0x7F`. -/
def funct7_of (inst : Nat) : Nat := (inst >>> 25) &&& 0x7F

def decode_word (inst : Nat) (pc : Int) : Option Meta :=
  if inst = 0 then some ⟨"NOP", 0, 0, 0, 0, none⟩ else
  if opcode_of inst = 0x37 then some ⟨"LUI", rd_of inst, 0, 0, ((imm_u inst >>> 12 : Nat) : Int), none⟩
  else if opcode_of inst = 0x17 then some ⟨"AUIPC", rd_of inst, 0, 0, ((imm_u inst >>> 12 : Nat) : Int), none⟩
  else if opcode_of inst = 0x6F then some ⟨"JAL", rd_of inst, 0, 0, 0, some (pc + imm_j inst)⟩
  else if opcode_of inst = 0x67 then some ⟨"JALR", rd_of inst, rs1_of inst, 0, imm_i inst, none⟩
  else if opcode_of inst = 0x63 then
    if funct3_of inst = 0x0 then some ⟨"BEQ", 0, rs1_of inst, rs2_of inst, 0, some (pc + imm_b inst)⟩
    else if funct3_of inst = 0x1 then some ⟨"BNE", 0, rs1_of inst, rs2_of inst, 0, some (pc + imm_b inst)⟩
    else if funct3_of inst = 0x4 then some ⟨"BLT", 0, rs1_of inst, rs2_of inst, 0, some (pc + imm_b inst)⟩
    else if funct3_of inst = 0x5 then some ⟨"BGE", 0, rs1_of inst, rs2_of inst, 0, some (pc + imm_b inst)⟩
    else if funct3_of inst = 0x6 then some ⟨"BLTU", 0, rs1_of inst, rs2_of inst, 0, some (pc + imm_b inst)⟩
    else if funct3_of inst = 0x7 then some ⟨"BGEU", 0, rs1_of inst, rs2_of inst, 0, some (pc + imm_b inst)⟩
    else none
  else if opcode_of inst = 0x03 then
    if funct3_of inst = 0x0 then some ⟨"LB", rd_of inst, rs1_of inst, 0, imm_i inst, none⟩
    else if funct3_of inst = 0x1 then some ⟨"LH", rd_of inst, rs1_of inst, 0, imm_i inst, none⟩
    else if funct3_of inst = 0x2 then some ⟨"LW", rd_of inst, rs1_of inst, 0, imm_i inst, none⟩
    else if funct3_of inst = 0x4 then some ⟨"LBU", rd_of inst, rs1_of inst, 0, imm_i inst, none⟩
    else if funct3_of inst = 0x5 then some ⟨"LHU", rd_of inst, rs1_of inst, 0, imm_i inst, none⟩
    else none
  else if opcode_of inst = 0x23 then
    if funct3_of inst = 0x0 then some ⟨"SB", 0, rs1_of inst, rs2_of inst, imm_s inst, none⟩
    else if funct3_of inst = 0x1 then some ⟨"SH", 0, rs1_of inst, rs2_of inst, imm_s inst, none⟩
    else if funct3_of inst = 0x2 then some ⟨"SW", 0, rs1_of inst, rs2_of inst, imm_s inst, none⟩
    else none
  else if opcode_of inst = 0x13 then
    if funct3_of inst = 0x0 then some ⟨"ADDI", rd_of inst, rs1_of inst, 0, imm_i inst, none⟩
    else if funct3_of inst = 0x2 then some ⟨"SLTI", rd_of inst, rs1_of inst, 0, imm_i inst, none⟩
    else if funct3_of inst = 0x3 then some ⟨"SLTIU", rd_of inst, rs1_of inst, 0, imm_i inst, none⟩
    else if funct3_of inst = 0x4 then some ⟨"XORI", rd_of inst, rs1_of inst, 0, imm_i inst, none⟩
    else if funct3_of inst = 0x6 then some ⟨"ORI", rd_of inst, rs1_of inst, 0, imm_i inst, none⟩
    else if funct3_of inst = 0x7 then some ⟨"ANDI", rd_of inst, rs1_of inst, 0, imm_i inst, none⟩
    else if funct3_of inst = 0x1 then some ⟨"SLLI", rd_of inst, rs1_of inst, 0, (((inst >>> 20) &&& 0x1F : Nat) : Int), none⟩
    else if funct3_of inst = 0x5 then
      if funct7_of inst = 0x00 then some ⟨"SRLI", rd_of inst, rs1_of inst, 0, (((inst >>> 20) &&& 0x1F : Nat) : Int), none⟩
      else if funct7_of inst = 0x20 then some ⟨"SRAI", rd_of inst, rs1_of inst, 0, (((inst >>> 20) &&& 0x1F : Nat) : Int), none⟩
      else none
    else none
  else if opcode_of inst = 0x33 then
    if funct7_of inst = 0x00 ∧ funct3_of inst = 0x0 then some ⟨"ADD", rd_of inst, rs1_of inst, rs2_of inst, 0, none⟩
    else if funct7_of inst = 0x20 ∧ funct3_of inst = 0x0 then some ⟨"SUB", rd_of inst, rs1_of inst, rs2_of inst, 0, none⟩
    else if funct7_of inst = 0x00 ∧ funct3_of inst = 0x1 then some ⟨"SLL", rd_of inst, rs1_of inst, rs2_of inst, 0, none⟩
    else if funct7_of inst = 0x00 ∧ funct3_of inst = 0x2 then some ⟨"SLT", rd_of inst, rs1_of inst, rs2_of inst, 0, none⟩
    else if funct7_of inst = 0x00 ∧ funct3_of inst = 0x3 then some ⟨"SLTU", rd_of inst, rs1_of inst, rs2_of inst, 0, none⟩
    else if funct7_of inst = 0x00 ∧ funct3_of inst = 0x4 then some ⟨"XOR", rd_of inst, rs1_of inst, rs2_of inst, 0, none⟩
    else if funct7_of inst = 0x00 ∧ funct3_of inst = 0x5 then some ⟨"SRL", rd_of inst, rs1_of inst, rs2_of inst, 0, none⟩
    else if funct7_of inst = 0x20 ∧ funct3_of inst = 0x5 then some ⟨"SRA", rd_of inst, rs1_of inst, rs2_of inst, 0, none⟩
    else if funct7_of inst = 0x00 ∧ funct3_of inst = 0x6 then some ⟨"OR", rd_of inst, rs1_of inst, rs2_of inst, 0, none⟩
    else if funct7_of inst = 0x00 ∧ funct3_of inst = 0x7 then some ⟨"AND", rd_of inst, rs1_of inst, rs2_of inst, 0, none⟩
    else none
  else none

/-! ### DecodeValidator decode tables (`test/check_log.py`)

`signext` is the validator's own sign extension (`x | (-1 << bits)` when the
sign bit is set; `-1 << bits` is `-(2 ^ bits)`); `ref_imm_i/s/b/u/j` are its
immediate extractors (`imm_s` is named `imm_s_fn` in the source); `decode` is
its golden decode table, returning `(name, rs1, rs2, rd, imm)` or `none`.
In the source, an opcode block whose inner conditions all fail falls through
to the remaining opcode tests, which necessarily also fail; the if-chain
below returns `none` there, which is the same result. -/

def signext (x : Nat) (bits : Nat) : Int :=
  if (x >>> (bits - 1)) &&& 1 = 1 then Int.lor (x : Int) (-((2 : Int) ^ bits)) else (x : Int)

def ref_imm_i (ins : Nat) : Int := signext ((ins >>> 20) &&& 0xFFF) 12

def ref_imm_s (ins : Nat) : Int := signext (((ins >>> 25) <<< 5) ||| ((ins >>> 7) &&& 0x1F)) 12

def ref_imm_b (ins : Nat) : Int :=
  signext (((ins >>> 31) <<< 12) ||| (((ins >>> 7) &&& 1) <<< 11) |||
    (((ins >>> 25) &&& 0x3F) <<< 5) ||| (((ins >>> 8) &&& 0xF) <<< 1)) 13

def ref_imm_u (ins : Nat) : Nat := ins &&& 0xFFFFF000

def ref_imm_j (ins : Nat) : Int :=
  signext (((ins >>> 31) <<< 20) ||| (((ins >>> 12) &&& 0xFF) <<< 12) |||
    (((ins >>> 20) &&& 1) <<< 11) ||| (((ins >>> 21) &&& 0x3FF) <<< 1)) 21

def decode (ins : Nat) : Option (String × Nat × Nat × Nat × Int) :=
  if opcode_of ins = 0x33 then
    if funct3_of ins = 0 ∧ funct7_of ins = 0x00 then some ("ADD", rs1_of ins, rs2_of ins, rd_of ins, 0)
    else if funct3_of ins = 0 ∧ funct7_of ins = 0x20 then some ("SUB", rs1_of ins, rs2_of ins, rd_of ins, 0)
    else if funct3_of ins = 7 then some ("AND", rs1_of ins, rs2_of ins, rd_of ins, 0)
    else if funct3_of ins = 6 then some ("OR", rs1_of ins, rs2_of ins, rd_of ins, 0)
    else if funct3_of ins = 4 then some ("XOR", rs1_of ins, rs2_of ins, rd_of ins, 0)
    else if funct3_of ins = 1 then some ("SLL", rs1_of ins, rs2_of ins, rd_of ins, 0)
    else if funct3_of ins = 5 ∧ funct7_of ins = 0x00 then some ("SRL", rs1_of ins, rs2_of ins, rd_of ins, 0)
    else if funct3_of ins = 5 ∧ funct7_of ins = 0x20 then some ("SRA", rs1_of ins, rs2_of ins, rd_of ins, 0)
    else if funct3_of ins = 2 then some ("SLT", rs1_of ins, rs2_of ins, rd_of ins, 0)
    else if funct3_of ins = 3 then some ("SLTU", rs1_of ins, rs2_of ins, rd_of ins, 0)
    else none
  else if opcode_of ins = 0x13 then
    if funct3_of ins = 0 then some ("ADDI", rs1_of ins, 0, rd_of ins, ref_imm_i ins)
    else if funct3_of ins = 7 then some ("ANDI", rs1_of ins, 0, rd_of ins, ref_imm_i ins)
    else if funct3_of ins = 6 then some ("ORI", rs1_of ins, 0, rd_of ins, ref_imm_i ins)
    else if funct3_of ins = 4 then some ("XORI", rs1_of ins, 0, rd_of ins, ref_imm_i ins)
    else if funct3_of ins = 2 then some ("SLTI", rs1_of ins, 0, rd_of ins, ref_imm_i ins)
    else if funct3_of ins = 3 then some ("SLTIU", rs1_of ins, 0, rd_of ins, ref_imm_i ins)
    else if funct3_of ins = 1 ∧ funct7_of ins = 0x00 then some ("SLLI", rs1_of ins, 0, rd_of ins, ref_imm_i ins)
    else if funct3_of ins = 5 ∧ funct7_of ins = 0x00 then some ("SRLI", rs1_of ins, 0, rd_of ins, ref_imm_i ins)
    else if funct3_of ins = 5 ∧ funct7_of ins = 0x20 then some ("SRAI", rs1_of ins, 0, rd_of ins, ref_imm_i ins)
    else none
  else if opcode_of ins = 0x03 then
    if funct3_of ins = 0 then some ("LB", rs1_of ins, 0, rd_of ins, ref_imm_i ins)
    else if funct3_of ins = 1 then some ("LH", rs1_of ins, 0, rd_of ins, ref_imm_i ins)
    else if funct3_of ins = 2 then some ("LW", rs1_of ins, 0, rd_of ins, ref_imm_i ins)
    else if funct3_of ins = 4 then some ("LBU", rs1_of ins, 0, rd_of ins, ref_imm_i ins)
    else if funct3_of ins = 5 then some ("LHU", rs1_of ins, 0, rd_of ins, ref_imm_i ins)
    else none
  else if opcode_of ins = 0x23 then
    if funct3_of ins = 0 then some ("SB", rs1_of ins, rs2_of ins, 0, ref_imm_s ins)
    else if funct3_of ins = 1 then some ("SH", rs1_of ins, rs2_of ins, 0, ref_imm_s ins)
    else if funct3_of ins = 2 then some ("SW", rs1_of ins, rs2_of ins, 0, ref_imm_s ins)
    else none
  else if opcode_of ins = 0x63 then
    if funct3_of ins = 0 then some ("BEQ", rs1_of ins, rs2_of ins, 0, ref_imm_b ins)
    else if funct3_of ins = 1 then some ("BNE", rs1_of ins, rs2_of ins, 0, ref_imm_b ins)
    else if funct3_of ins = 4 then some ("BLT", rs1_of ins, rs2_of ins, 0, ref_imm_b ins)
    else if funct3_of ins = 5 then some ("BGE", rs1_of ins, rs2_of ins, 0, ref_imm_b ins)
    else if funct3_of ins = 6 then some ("BLTU", rs1_of ins, rs2_of ins, 0, ref_imm_b ins)
    else if funct3_of ins = 7 then some ("BGEU", rs1_of ins, rs2_of ins, 0, ref_imm_b ins)
    else none
  else if opcode_of ins = 0x6F then some ("JAL", 0, 0, rd_of ins, ref_imm_j ins)
  else if opcode_of ins = 0x67 then some ("JALR", rs1_of ins, 0, rd_of ins, ref_imm_i ins)
  else if opcode_of ins = 0x37 then some ("LUI", 0, 0, rd_of ins, (ref_imm_u ins : Int))
  else if opcode_of ins = 0x17 then some ("AUIPC", 0, 0, rd_of ins, (ref_imm_u ins : Int))
  else none

/-! ### Sparse byte memory (`sw/rv32i_tests_gen.py`, lines 649–664)

The Python `dict[int,int]` with `mem.get(key, 0)` is modelled as a total
function `Nat → Nat` (an empty dict is the constant-zero function; `dict`
assignment is pointwise update).  Keys are `addr & 0xFFFFFFFF = addr % 2^32`
and stored bytes are `val & 0xFF = val % 2^8`, exactly as in the source;
`mem_write` stores `size` bytes little-endian, `mem_read` reassembles them. -/

def mem_write_byte (mem : Nat → Nat) (addr val : Nat) : Nat → Nat :=
  fun a => if a = addr % 2 ^ 32 then val % 2 ^ 8 else mem a

def mem_read_byte (mem : Nat → Nat) (addr : Nat) : Nat :=
  mem (addr % 2 ^ 32)

def mem_write (mem : Nat → Nat) (addr size val : Nat) : Nat → Nat :=
  (List.range size).foldl (fun m i => mem_write_byte m (addr + i) (val >>> (8 * i))) mem

def mem_read (mem : Nat → Nat) (addr size : Nat) : Nat :=
  (List.range size).foldl (fun v i => v ||| mem_read_byte mem (addr + i) <<< (8 * i)) 0

/-! ### Golden reference simulator (`sw/rv32i_tests_gen.py`, `simulate_commit_trace`)

`r` is the register read helper (`0 if i == 0 else regs[i]`); `exec_op` is the
execute phase of one loop iteration, returning `(rd_data, mem, next_pc)` or the
`RuntimeError` raised (error message text is abridged); `commit_regs` is the
commit (`if rd != 0: regs[rd] = u32(rd_data)` then `regs[0] = 0`);
`commit_rd_data` is the recorded entry value (`regs[rd] if rd != 0 else 0`).
Python's `>>` on a possibly negative int is an arithmetic shift, i.e. floor
division by `2^k`, hence `Int.fdiv` in the SRAI/SRA cases.  `pc_to_idx`
membership (`pc in {i*4: i}`) is `pc_index`; the `while` loop is `sim_run`,
driven by structural fuel: each iteration increments `cycle` by one, so with
`fuel = max_steps` the fuel never runs out before `cycle < max_steps` fails,
and `simulate_commit_trace` passes exactly that. -/

def r (regs : List Nat) (i : Nat) : Nat :=
  if i = 0 then 0 else regs.getD i 0

def exec_op (mem : Nat → Nat) (regs : List Nat) (pc : Int) (m : Meta) :
    Except String (Int × (Nat → Nat) × Int) :=
  let rs1 := m.rs1
  let rs2 := m.rs2
  let imm := m.imm
  if m.op = "NOP" then .ok (0, mem, pc + 4)
  else if m.op = "LUI" then .ok ((u32 ((mask imm 20 <<< 12 : Nat) : Int) : Int), mem, pc + 4)
  else if m.op = "AUIPC" then .ok ((u32 (pc + ((mask imm 20 <<< 12 : Nat) : Int)) : Int), mem, pc + 4)
  else if m.op = "ADDI" then .ok ((u32 ((r regs rs1 : Int) + sext imm 12) : Int), mem, pc + 4)
  else if m.op = "SLTI" then
    .ok (if s32 (r regs rs1 : Int) < sext imm 12 then 1 else 0, mem, pc + 4)
  else if m.op = "SLTIU" then
    .ok (if u32 (r regs rs1 : Int) < u32 (sext imm 12) then 1 else 0, mem, pc + 4)
  else if m.op = "XORI" then .ok ((u32 (Int.xor (r regs rs1 : Int) (sext imm 12)) : Int), mem, pc + 4)
  else if m.op = "ORI" then .ok ((u32 (Int.lor (r regs rs1 : Int) (sext imm 12)) : Int), mem, pc + 4)
  else if m.op = "ANDI" then .ok ((u32 (Int.land (r regs rs1 : Int) (sext imm 12)) : Int), mem, pc + 4)
  else if m.op = "SLLI" then .ok ((u32 ((r regs rs1 <<< mask imm 5 : Nat) : Int) : Int), mem, pc + 4)
  else if m.op = "SRLI" then
    .ok ((u32 ((u32 (r regs rs1 : Int) >>> mask imm 5 : Nat) : Int) : Int), mem, pc + 4)
  else if m.op = "SRAI" then
    .ok ((u32 (Int.fdiv (s32 (r regs rs1 : Int)) ((2 : Int) ^ mask imm 5)) : Int), mem, pc + 4)
  else if m.op = "ADD" then .ok ((u32 ((r regs rs1 : Int) + (r regs rs2 : Int)) : Int), mem, pc + 4)
  else if m.op = "SUB" then .ok ((u32 ((r regs rs1 : Int) - (r regs rs2 : Int)) : Int), mem, pc + 4)
  else if m.op = "SLL" then
    .ok ((u32 ((r regs rs1 <<< (r regs rs2 &&& 0x1F) : Nat) : Int) : Int), mem, pc + 4)
  else if m.op = "SLT" then
    .ok (if s32 (r regs rs1 : Int) < s32 (r regs rs2 : Int) then 1 else 0, mem, pc + 4)
  else if m.op = "SLTU" then
    .ok (if u32 (r regs rs1 : Int) < u32 (r regs rs2 : Int) then 1 else 0, mem, pc + 4)
  else if m.op = "XOR" then .ok ((u32 ((r regs rs1 ^^^ r regs rs2 : Nat) : Int) : Int), mem, pc + 4)
  else if m.op = "SRL" then
    .ok ((u32 ((u32 (r regs rs1 : Int) >>> (r regs rs2 &&& 0x1F) : Nat) : Int) : Int), mem, pc + 4)
  else if m.op = "SRA" then
    .ok ((u32 (Int.fdiv (s32 (r regs rs1 : Int)) ((2 : Int) ^ (r regs rs2 &&& 0x1F))) : Int), mem, pc + 4)
  else if m.op = "OR" then .ok ((u32 ((r regs rs1 ||| r regs rs2 : Nat) : Int) : Int), mem, pc + 4)
  else if m.op = "AND" then .ok ((u32 ((r regs rs1 &&& r regs rs2 : Nat) : Int) : Int), mem, pc + 4)
  else if m.op = "BEQ" ∨ m.op = "BNE" ∨ m.op = "BLT" ∨ m.op = "BGE" ∨
      m.op = "BLTU" ∨ m.op = "BGEU" then
    match m.target_pc with
    | none => .error "Unresolved branch"
    | some tgt =>
      let taken : Bool :=
        if m.op = "BEQ" then decide (u32 (r regs rs1 : Int) = u32 (r regs rs2 : Int))
        else if m.op = "BNE" then decide (u32 (r regs rs1 : Int) ≠ u32 (r regs rs2 : Int))
        else if m.op = "BLT" then decide (s32 (r regs rs1 : Int) < s32 (r regs rs2 : Int))
        else if m.op = "BGE" then decide (s32 (r regs rs2 : Int) ≤ s32 (r regs rs1 : Int))
        else if m.op = "BLTU" then decide (u32 (r regs rs1 : Int) < u32 (r regs rs2 : Int))
        else decide (u32 (r regs rs2 : Int) ≤ u32 (r regs rs1 : Int))
      .ok (0, mem, if taken then tgt else pc + 4)
  else if m.op = "JAL" then
    match m.target_pc with
    | none => .error "Unresolved JAL"
    | some tgt => .ok ((u32 (pc + 4) : Int), mem, tgt)
  else if m.op = "JALR" then
    .ok ((u32 (pc + 4) : Int), mem,
      ((u32 ((r regs rs1 : Int) + sext imm 12) &&& 0xFFFFFFFE : Nat) : Int))
  else if m.op = "LB" then
    let addr := u32 ((r regs rs1 : Int) + sext imm 12)
    .ok ((u32 (sext ((mem_read mem addr 1 : Nat) : Int) 8) : Int), mem, pc + 4)
  else if m.op = "LBU" then
    let addr := u32 ((r regs rs1 : Int) + sext imm 12)
    .ok ((u32 ((mem_read mem addr 1 : Nat) : Int) : Int), mem, pc + 4)
  else if m.op = "LH" then
    let addr := u32 ((r regs rs1 : Int) + sext imm 12)
    .ok ((u32 (sext ((mem_read mem addr 2 : Nat) : Int) 16) : Int), mem, pc + 4)
  else if m.op = "LHU" then
    let addr := u32 ((r regs rs1 : Int) + sext imm 12)
    .ok ((u32 ((mem_read mem addr 2 : Nat) : Int) : Int), mem, pc + 4)
  else if m.op = "LW" then
    let addr := u32 ((r regs rs1 : Int) + sext imm 12)
    .ok ((u32 ((mem_read mem addr 4 : Nat) : Int) : Int), mem, pc + 4)
  else if m.op = "SB" then
    let addr := u32 ((r regs rs1 : Int) + sext imm 12)
    .ok (0, mem_write mem addr 1 (r regs rs2), pc + 4)
  else if m.op = "SH" then
    let addr := u32 ((r regs rs1 : Int) + sext imm 12)
    .ok (0, mem_write mem addr 2 (r regs rs2), pc + 4)
  else if m.op = "SW" then
    let addr := u32 ((r regs rs1 : Int) + sext imm 12)
    .ok (0, mem_write mem addr 4 (r regs rs2), pc + 4)
  else if m.op = "DATA" then .error "Executed DATA"
  else .error "Unknown op"

/-- The `test/rv32i_tests_gen.py` variant of the execute phase.  It differs
from `exec_op` only in XORI/ORI/ANDI (`imm & 0xFFF` instead of
`sext(imm, 12)`) and in having no explicit DATA case (DATA falls through to
the unknown-op error there). -/
def exec_op_t (mem : Nat → Nat) (regs : List Nat) (pc : Int) (m : Meta) :
    Except String (Int × (Nat → Nat) × Int) :=
  let rs1 := m.rs1
  let rs2 := m.rs2
  let imm := m.imm
  if m.op = "NOP" then .ok (0, mem, pc + 4)
  else if m.op = "LUI" then .ok ((u32 ((mask imm 20 <<< 12 : Nat) : Int) : Int), mem, pc + 4)
  else if m.op = "AUIPC" then .ok ((u32 (pc + ((mask imm 20 <<< 12 : Nat) : Int)) : Int), mem, pc + 4)
  else if m.op = "ADDI" then .ok ((u32 ((r regs rs1 : Int) + sext imm 12) : Int), mem, pc + 4)
  else if m.op = "SLTI" then
    .ok (if s32 (r regs rs1 : Int) < sext imm 12 then 1 else 0, mem, pc + 4)
  else if m.op = "SLTIU" then
    .ok (if u32 (r regs rs1 : Int) < u32 (sext imm 12) then 1 else 0, mem, pc + 4)
  else if m.op = "XORI" then
    .ok ((u32 (Int.xor (r regs rs1 : Int) (Int.land imm 0xFFF)) : Int), mem, pc + 4)
  else if m.op = "ORI" then
    .ok ((u32 (Int.lor (r regs rs1 : Int) (Int.land imm 0xFFF)) : Int), mem, pc + 4)
  else if m.op = "ANDI" then
    .ok ((u32 (Int.land (r regs rs1 : Int) (Int.land imm 0xFFF)) : Int), mem, pc + 4)
  else if m.op = "SLLI" then .ok ((u32 ((r regs rs1 <<< mask imm 5 : Nat) : Int) : Int), mem, pc + 4)
  else if m.op = "SRLI" then
    .ok ((u32 ((u32 (r regs rs1 : Int) >>> mask imm 5 : Nat) : Int) : Int), mem, pc + 4)
  else if m.op = "SRAI" then
    .ok ((u32 (Int.fdiv (s32 (r regs rs1 : Int)) ((2 : Int) ^ mask imm 5)) : Int), mem, pc + 4)
  else if m.op = "ADD" then .ok ((u32 ((r regs rs1 : Int) + (r regs rs2 : Int)) : Int), mem, pc + 4)
  else if m.op = "SUB" then .ok ((u32 ((r regs rs1 : Int) - (r regs rs2 : Int)) : Int), mem, pc + 4)
  else if m.op = "SLL" then
    .ok ((u32 ((r regs rs1 <<< (r regs rs2 &&& 0x1F) : Nat) : Int) : Int), mem, pc + 4)
  else if m.op = "SLT" then
    .ok (if s32 (r regs rs1 : Int) < s32 (r regs rs2 : Int) then 1 else 0, mem, pc + 4)
  else if m.op = "SLTU" then
    .ok (if u32 (r regs rs1 : Int) < u32 (r regs rs2 : Int) then 1 else 0, mem, pc + 4)
  else if m.op = "XOR" then .ok ((u32 ((r regs rs1 ^^^ r regs rs2 : Nat) : Int) : Int), mem, pc + 4)
  else if m.op = "SRL" then
    .ok ((u32 ((u32 (r regs rs1 : Int) >>> (r regs rs2 &&& 0x1F) : Nat) : Int) : Int), mem, pc + 4)
  else if m.op = "SRA" then
    .ok ((u32 (Int.fdiv (s32 (r regs rs1 : Int)) ((2 : Int) ^ (r regs rs2 &&& 0x1F))) : Int), mem, pc + 4)
  else if m.op = "OR" then .ok ((u32 ((r regs rs1 ||| r regs rs2 : Nat) : Int) : Int), mem, pc + 4)
  else if m.op = "AND" then .ok ((u32 ((r regs rs1 &&& r regs rs2 : Nat) : Int) : Int), mem, pc + 4)
  else if m.op = "BEQ" ∨ m.op = "BNE" ∨ m.op = "BLT" ∨ m.op = "BGE" ∨
      m.op = "BLTU" ∨ m.op = "BGEU" then
    match m.target_pc with
    | none => .error "Unresolved branch"
    | some tgt =>
      let taken : Bool :=
        if m.op = "BEQ" then decide (u32 (r regs rs1 : Int) = u32 (r regs rs2 : Int))
        else if m.op = "BNE" then decide (u32 (r regs rs1 : Int) ≠ u32 (r regs rs2 : Int))
        else if m.op = "BLT" then decide (s32 (r regs rs1 : Int) < s32 (r regs rs2 : Int))
        else if m.op = "BGE" then decide (s32 (r regs rs2 : Int) ≤ s32 (r regs rs1 : Int))
        else if m.op = "BLTU" then decide (u32 (r regs rs1 : Int) < u32 (r regs rs2 : Int))
        else decide (u32 (r regs rs2 : Int) ≤ u32 (r regs rs1 : Int))
      .ok (0, mem, if taken then tgt else pc + 4)
  else if m.op = "JAL" then
    match m.target_pc with
    | none => .error "Unresolved JAL"
    | some tgt => .ok ((u32 (pc + 4) : Int), mem, tgt)
  else if m.op = "JALR" then
    .ok ((u32 (pc + 4) : Int), mem,
      ((u32 ((r regs rs1 : Int) + sext imm 12) &&& 0xFFFFFFFE : Nat) : Int))
  else if m.op = "LB" then
    let addr := u32 ((r regs rs1 : Int) + sext imm 12)
    .ok ((u32 (sext ((mem_read mem addr 1 : Nat) : Int) 8) : Int), mem, pc + 4)
  else if m.op = "LBU" then
    let addr := u32 ((r regs rs1 : Int) + sext imm 12)
    .ok ((u32 ((mem_read mem addr 1 : Nat) : Int) : Int), mem, pc + 4)
  else if m.op = "LH" then
    let addr := u32 ((r regs rs1 : Int) + sext imm 12)
    .ok ((u32 (sext ((mem_read mem addr 2 : Nat) : Int) 16) : Int), mem, pc + 4)
  else if m.op = "LHU" then
    let addr := u32 ((r regs rs1 : Int) + sext imm 12)
    .ok ((u32 ((mem_read mem addr 2 : Nat) : Int) : Int), mem, pc + 4)
  else if m.op = "LW" then
    let addr := u32 ((r regs rs1 : Int) + sext imm 12)
    .ok ((u32 ((mem_read mem addr 4 : Nat) : Int) : Int), mem, pc + 4)
  else if m.op = "SB" then
    let addr := u32 ((r regs rs1 : Int) + sext imm 12)
    .ok (0, mem_write mem addr 1 (r regs rs2), pc + 4)
  else if m.op = "SH" then
    let addr := u32 ((r regs rs1 : Int) + sext imm 12)
    .ok (0, mem_write mem addr 2 (r regs rs2), pc + 4)
  else if m.op = "SW" then
    let addr := u32 ((r regs rs1 : Int) + sext imm 12)
    .ok (0, mem_write mem addr 4 (r regs rs2), pc + 4)
  else .error "Unknown op"

structure CommitEntry where
  cycle : Nat
  pc : Int
  inst : Nat
  rd : Nat
  rd_data : Nat
  asm : String
deriving Repr, DecidableEq

structure SimState where
  regs : List Nat
  mem : Nat → Nat
  pc : Int
  cycle : Nat
  trace : List CommitEntry

def commit_regs (regs : List Nat) (rd : Nat) (rd_data : Int) : List Nat :=
  (if rd ≠ 0 then regs.set rd (u32 rd_data) else regs).set 0 0

def commit_rd_data (regs : List Nat) (rd : Nat) : Nat :=
  if rd ≠ 0 then regs.getD rd 0 else 0

def pc_index (pc : Int) (n : Nat) : Option Nat :=
  if 0 ≤ pc ∧ pc % 4 = 0 ∧ pc / 4 < n then some (pc / 4).toNat else none

def sim_step (words : List Nat) (meta : List Meta) (asm : List String)
    (st : SimState) (idx : Nat) : Except String SimState :=
  let w := words.getD idx 0
  let m := meta.getD idx ⟨"NOP", 0, 0, 0, 0, none⟩
  match exec_op st.mem st.regs st.pc m with
  | .error e => .error e
  | .ok (rd_data, mem', next_pc) =>
    let regs' := commit_regs st.regs m.rd rd_data
    .ok ⟨regs', mem', next_pc, st.cycle + 1,
      st.trace ++ [⟨st.cycle, st.pc, w, m.rd, commit_rd_data regs' m.rd, asm.getD idx ""⟩]⟩

def sim_run (words : List Nat) (meta : List Meta) (asm : List String)
    (max_steps : Nat) : Nat → SimState → Except String SimState
  | 0, st => .ok st
  | fuel + 1, st =>
    if st.cycle < max_steps then
      match pc_index st.pc words.length with
      | some idx =>
        match sim_step words meta asm st idx with
        | .error e => .error e
        | .ok st' => sim_run words meta asm max_steps fuel st'
      | none => .ok st
    else .ok st

def init_state : SimState := ⟨List.replicate 32 0, fun _ => 0, 0, 0, []⟩

def simulate_commit_trace (words : List Nat) (meta : List Meta) (asm : List String)
    (max_steps : Nat) : Except String (List CommitEntry × List Nat) :=
  match sim_run words meta asm max_steps max_steps init_state with
  | .error e => .error e
  | .ok st => .ok (st.trace, st.regs)

/-! ### TraceComparator (`test/trace_diff.py`)

`GoldRec` carries the fields `parse_gold_trace` extracts from a golden trace
line, `SimRec` those `parse_commit_jsonl` extracts from a hardware commit
event that the comparison can see (further JSON metadata fields are never
read by `key`/`diff_first` and are omitted).  `key(rec)` is
`(rec["pc"], rec["rd"], rec["data"])`, written per record type; `diff_first`
walks both sequences in lock-step over the first `min` entries
(`diff_first_loop` is the `for i in range(n)` loop with its running index)
and then applies the length check. -/

structure GoldRec where
  cycle : Nat
  pc : Nat
  inst : Nat
  rd : Nat
  data : Nat
  asm : String
deriving Repr, DecidableEq

structure SimRec where
  cycle : Option Nat
  pc : Nat
  rd : Nat
  data : Nat
deriving Repr, DecidableEq

def keyG (rec : GoldRec) : Nat × Nat × Nat := (rec.pc, rec.rd, rec.data)

def keyS (rec : SimRec) : Nat × Nat × Nat := (rec.pc, rec.rd, rec.data)

def diff_first_loop : List GoldRec → List SimRec → Nat → Option Nat
  | g :: gs, s :: ss, i =>
    if keyG g ≠ keyS s then some i else diff_first_loop gs ss (i + 1)
  | _, _, _ => none

def diff_first (gold : List GoldRec) (sim : List SimRec) : Option Nat :=
  match diff_first_loop gold sim 0 with
  | some i => some i
  | none => if sim.length ≠ gold.length then some (min gold.length sim.length) else none

/-! ### Program-image loaders (`sw/hex2trace.py` `parse_hex_words`,
`sw/rv32i_tests_gen.py` `load_hex_words`)

Lines are `List Char`; a file is a list of lines.  `py_strip` is Python's
`str.strip()` over the six ASCII whitespace characters; `parse_hex_line`
processes one loop iteration of `parse_hex_words` (strip, drop a `#` comment,
drop a `//` comment, re-strip, validate `[0-9a-fA-F]+`, take the value
mod `2^32`), returning `none` for a skipped blank line and `.error` for the
`RuntimeError`.  `load_hex_line` is one iteration of `load_hex_words`
(strip, then Python `int(line, 16) & 0xFFFFFFFF`); `int16?` models
`int(·, 16)`: optional sign, optional `0x`/`0X` prefix, then nonempty hex
digits (the underscore digit grouping and embedded whitespace Python's `int`
also tolerates never occur in the lines considered here and are omitted);
a `none` result is the `ValueError`. -/

def py_isspace (c : Char) : Bool :=
  c = ' ' || c = '\t' || c = '\n' || c = '\r' || c = '\x0B' || c = '\x0C'

def py_strip (s : List Char) : List Char :=
  ((s.dropWhile py_isspace).reverse.dropWhile py_isspace).reverse

def is_hex_digit (c : Char) : Bool :=
  ('0' ≤ c && c ≤ '9') || ('a' ≤ c && c ≤ 'f') || ('A' ≤ c && c ≤ 'F')

def hex_digit_val (c : Char) : Nat :=
  if '0' ≤ c ∧ c ≤ '9' then c.toNat - '0'.toNat
  else if 'a' ≤ c ∧ c ≤ 'f' then c.toNat - 'a'.toNat + 10
  else c.toNat - 'A'.toNat + 10

def hex_val (s : List Char) : Nat :=
  s.foldl (fun acc c => 16 * acc + hex_digit_val c) 0

def before_slashslash : List Char → List Char
  | [] => []
  | c :: rest =>
    if c = '/' ∧ rest.head? = some '/' then [] else c :: before_slashslash rest

def parse_hex_line (line : List Char) : Except String (Option Nat) :=
  let l1 := py_strip line
  if l1 = [] then .ok none
  else
    let l3 := py_strip (before_slashslash (py_strip (l1.takeWhile (fun c => c ≠ '#'))))
    if l3 = [] then .ok none
    else if l3.all is_hex_digit then .ok (some (hex_val l3 % 2 ^ 32))
    else .error "unsupported hex line format"

def parse_hex_words : List (List Char) → Except String (List Nat)
  | [] => .ok []
  | line :: rest =>
    match parse_hex_line line with
    | .error e => .error e
    | .ok none => parse_hex_words rest
    | .ok (some w) =>
      match parse_hex_words rest with
      | .error e => .error e
      | .ok ws => .ok (w :: ws)

def int16digits (s : List Char) : Option Nat :=
  if s ≠ [] ∧ s.all is_hex_digit then some (hex_val s) else none

def int16pre : List Char → Option Nat
  | c0 :: c1 :: rest =>
    if c0 = '0' ∧ (c1 = 'x' ∨ c1 = 'X') then int16digits rest
    else int16digits (c0 :: c1 :: rest)
  | s => int16digits s

def int16? : List Char → Option Int
  | [] => none
  | c :: rest =>
    if c = '-' then (int16pre rest).map (fun n => -((n : Nat) : Int))
    else if c = '+' then (int16pre rest).map (fun n => ((n : Nat) : Int))
    else (int16pre (c :: rest)).map (fun n => ((n : Nat) : Int))

def load_hex_line (line : List Char) : Except String (Option Nat) :=
  let l1 := py_strip line
  if l1 = [] then .ok none
  else
    match int16? l1 with
    | some v => .ok (some (u32 v))
    | none => .error "invalid literal for int with base 16"

def load_hex_words : List (List Char) → Except String (List Nat)
  | [] => .ok []
  | line :: rest =>
    match load_hex_line line with
    | .error e => .error e
    | .ok none => load_hex_words rest
    | .ok (some w) =>
      match load_hex_words rest with
      | .error e => .error e
      | .ok ws => .ok (w :: ws)

/-! ### RedirectValidator (`test/check_redirect.py`)

Each log line is stripped and then tested against
`RE_REDIRECT = ^REDIRECT\s+to=([0-9a-fA-F]{8})\s*$` (`redirectMatch?`:
the literal word, at least one whitespace, `to=`, exactly eight hex digits,
optionally trailing whitespace) and, failing that, searched with
`RE_PC = \bPC=([0-9a-fA-F]{8})\b` (`pcSearch`: the leftmost position where
`PC=` preceded by a word boundary is followed by exactly eight hex digits and
a word boundary).  `check_redirect` is the `main` loop over the remaining
lines with state `pend : Option (target × budget)`, `total_uops` and
`redirects`; `RedirectResult` encodes its four exits (the double-redirect
`return 2`, the two `return 1` failures with the pending target, and the
success `return 0` with the two counters). -/

def dropPrefix? : List Char → List Char → Option (List Char)
  | s, [] => some s
  | c :: s, p :: ps => if c = p then dropPrefix? s ps else none
  | [], _ :: _ => none

def redirectMatch? (s : List Char) : Option Nat :=
  match dropPrefix? s ['R', 'E', 'D', 'I', 'R', 'E', 'C', 'T'] with
  | none => none
  | some r1 =>
    let r2 := r1.dropWhile py_isspace
    if r1.length = r2.length then none
    else
      match dropPrefix? r2 ['t', 'o', '='] with
      | none => none
      | some r3 =>
        if (r3.take 8).length = 8 ∧ (r3.take 8).all is_hex_digit ∧
            (r3.drop 8).all py_isspace then
          some (hex_val (r3.take 8))
        else none

def is_word_char (c : Char) : Bool :=
  ('A' ≤ c && c ≤ 'Z') || ('a' ≤ c && c ≤ 'z') || ('0' ≤ c && c ≤ '9') || c = '_'

def boundary_ok : Option Char → Bool
  | none => true
  | some c => !is_word_char c

def pcMatchAt (prev : Option Char) (s : List Char) : Option Nat :=
  match dropPrefix? s ['P', 'C', '='] with
  | none => none
  | some r =>
    if boundary_ok prev = true ∧ (r.take 8).length = 8 ∧ (r.take 8).all is_hex_digit ∧
        boundary_ok (r.drop 8).head? = true then
      some (hex_val (r.take 8))
    else none

def pcSearch : Option Char → List Char → Option Nat
  | prev, [] => pcMatchAt prev []
  | prev, c :: rest =>
    match pcMatchAt prev (c :: rest) with
    | some v => some v
    | none => pcSearch (some c) rest

def MAX_LAT : Int := 3

inductive RedirectResult where
  | doubleRedirect : Nat → RedirectResult
  | failBudget : Nat → RedirectResult
  | failPending : Nat → RedirectResult
  | ok : Nat → Nat → RedirectResult
deriving Repr, DecidableEq

def check_redirect : List (List Char) → Option (Nat × Int) → Nat → Nat → RedirectResult
  | [], pend, total_uops, redirects =>
    match pend with
    | some (tgt, _) => .failPending tgt
    | none => .ok redirects total_uops
  | line :: rest, pend, total_uops, redirects =>
    match redirectMatch? (py_strip line) with
    | some tgt =>
      match pend with
      | some (ptgt, _) => .doubleRedirect ptgt
      | none => check_redirect rest (some (tgt, MAX_LAT)) total_uops (redirects + 1)
    | none =>
      match pcSearch none (py_strip line) with
      | none => check_redirect rest pend total_uops redirects
      | some pc =>
        match pend with
        | none => check_redirect rest none (total_uops + 1) redirects
        | some (tgt, budget) =>
          if pc = tgt then check_redirect rest none (total_uops + 1) redirects
          else if budget - 1 < 0 then .failBudget tgt
          else check_redirect rest (some (tgt, budget - 1)) (total_uops + 1) redirects

def pc_values (lines : List (List Char)) : List Nat :=
  lines.filterMap (fun l => pcSearch none (py_strip l))

/-! ### Theorems -/


/-! ### Bit-manipulation kit

Facts connecting `&&&`, `|||`, `^^^`, `<<<`, `>>>`, `Nat.ldiff` and the
two's-complement `Int` operations to arithmetic (`%`, `/`, `*`), used to
reason about the Python sources' bit twiddling. -/

theorem and_two_pow_sub_one (x m k : Nat) (hm : m = 2 ^ k - 1) :
    x &&& m = x % 2 ^ k := by
  subst hm; exact Nat.and_pow_two_sub_one_eq_mod x k

theorem shiftRight_eq_div (x k p : Nat) (hp : p = 2 ^ k) : x >>> k = x / p := by
  subst hp; exact Nat.shiftRight_eq_div_pow x k

theorem or_eq_add_of_dvd {A y : Nat} (t : Nat) (hA : 2 ^ t ∣ A) (hy : y < 2 ^ t) :
    A ||| y = A + y := by
  obtain ⟨c, rfl⟩ := hA
  exact (Nat.mul_add_lt_is_or hy c).symm

theorem shiftLeft_eq_mul (x k p : Nat) (hp : p = 2 ^ k) : x <<< k = x * p := by
  subst hp; exact Nat.shiftLeft_eq x k

/-- Bitwise complement within `k` bits is subtraction from the all-ones mask. -/
theorem compl_eq_xor {k x : Nat} (hx : x < 2 ^ k) : 2 ^ k - 1 - x = x ^^^ (2 ^ k - 1) := by
  apply Nat.eq_of_testBit_eq
  intro i
  have h1 : 2 ^ k - 1 - x = 2 ^ k - (x + 1) := by omega
  rw [h1, Nat.testBit_two_pow_sub_succ hx, Nat.testBit_xor, Nat.testBit_two_pow_sub_one]
  by_cases h : i < k
  · simp [h]
  · have : x < 2 ^ i := lt_of_lt_of_le hx (Nat.pow_le_pow_right (by norm_num) (by omega))
    simp [h, Nat.testBit_lt_two_pow this]

theorem xor_mod_two_pow (x y k : Nat) :
    (x ^^^ y) % 2 ^ k = (x % 2 ^ k) ^^^ (y % 2 ^ k) := by
  apply Nat.eq_of_testBit_eq
  intro i
  simp only [Nat.testBit_mod_two_pow, Nat.testBit_xor]
  by_cases h : i < k <;> simp [h]

theorem and_mod_two_pow (x y k : Nat) :
    (x &&& y) % 2 ^ k = (x % 2 ^ k) &&& (y % 2 ^ k) := by
  apply Nat.eq_of_testBit_eq
  intro i
  simp only [Nat.testBit_mod_two_pow, Nat.testBit_and]
  by_cases h : i < k <;> simp [h]

theorem or_mod_two_pow (x y k : Nat) :
    (x ||| y) % 2 ^ k = (x % 2 ^ k) ||| (y % 2 ^ k) := by
  apply Nat.eq_of_testBit_eq
  intro i
  simp only [Nat.testBit_mod_two_pow, Nat.testBit_or]
  by_cases h : i < k <;> simp [h]

theorem ldiff_mod_two_pow (x y k : Nat) :
    Nat.ldiff x y % 2 ^ k = Nat.ldiff (x % 2 ^ k) (y % 2 ^ k) := by
  apply Nat.eq_of_testBit_eq
  intro i
  simp only [Nat.testBit_mod_two_pow, Nat.testBit_ldiff]
  by_cases h : i < k <;> simp [h]

theorem ldiff_lt_two_pow {x k : Nat} (hx : x < 2 ^ k) (y : Nat) :
    Nat.ldiff x y < 2 ^ k := by
  rcases Nat.lt_or_ge (Nat.ldiff x y) (2 ^ k) with h | h
  · exact h
  · exfalso
    obtain ⟨i, hik, hbit⟩ := Nat.ge_two_pow_implies_high_bit_true h
    rw [Nat.testBit_ldiff] at hbit
    have hx' : x < 2 ^ i := lt_of_lt_of_le hx (Nat.pow_le_pow_right (by norm_num) hik)
    simp [Nat.testBit_lt_two_pow hx'] at hbit

/-- `Nat.ldiff` from the all-ones mask inverts the low `k` bits:
it is what `Int.land`/`Int.lor` produce when one operand is negative. -/
theorem ldiff_mask (k n : Nat) : Nat.ldiff (2 ^ k - 1) n = 2 ^ k - 1 - n % 2 ^ k := by
  apply Nat.eq_of_testBit_eq
  intro i
  have h1 : 2 ^ k - 1 - n % 2 ^ k = 2 ^ k - (n % 2 ^ k + 1) := by omega
  rw [h1, Nat.testBit_two_pow_sub_succ (Nat.mod_lt _ (Nat.pos_pow_of_pos k (by norm_num)))]
  rw [Nat.testBit_ldiff, Nat.testBit_two_pow_sub_one, Nat.testBit_mod_two_pow]
  by_cases h : i < k <;> simp [h]

/-! Definitional equations for the Mathlib two's-complement `Int` bitwise
operations on the constructor forms used below. -/

theorem int_land_cast (m n : Nat) : Int.land (m : Int) (n : Int) = ((m &&& n : Nat) : Int) := rfl

theorem int_land_negSucc (m n : Nat) :
    Int.land (m : Int) (Int.negSucc n) = ((Nat.ldiff m n : Nat) : Int) := rfl

theorem int_lor_cast (m n : Nat) : Int.lor (m : Int) (n : Int) = ((m ||| n : Nat) : Int) := rfl

theorem int_lor_negSucc (m n : Nat) :
    Int.lor (m : Int) (Int.negSucc n) = Int.negSucc (Nat.ldiff n m) := rfl

theorem int_xor_cast (m n : Nat) : Int.xor (m : Int) (n : Int) = ((m ^^^ n : Nat) : Int) := rfl

theorem int_xor_negSucc (m n : Nat) :
    Int.xor (m : Int) (Int.negSucc n) = Int.negSucc (m ^^^ n) := rfl

/-! ### InstructionCodec (`sw/rv32i_tests_gen.py`)

`mask`, the six format encoders `encode_R/I/U/B/J/S`, the helpers
`sext`, `u32`, `s32` and the immediate extractors `imm_i/s/b/u/j`.
Immediate-carrying arguments may be negative in the source, so they are
`Int`; `mask` is Python's `n & ((1 << bits) - 1)` (the literal `2 ^ bits`
stands for `1 <<< bits`). -/

theorem int_negSucc_land (m n : Nat) :
    Int.land (Int.negSucc m) (n : Int) = ((Nat.ldiff n m : Nat) : Int) := rfl

theorem int_negSucc_emod_two_pow (m k : Nat) :
    (Int.negSucc m) % ((2 ^ k : Nat) : Int) = ((2 ^ k - 1 - m % 2 ^ k : Nat) : Int) := by
  have hpos : 0 < 2 ^ k := Nat.pos_pow_of_pos k (by norm_num)
  have hdm : m = 2 ^ k * (m / 2 ^ k) + m % 2 ^ k := (Nat.div_add_mod m (2 ^ k)).symm
  have hr : m % 2 ^ k < 2 ^ k := Nat.mod_lt _ hpos
  have h1 : (Int.negSucc m) =
      ((2 ^ k - 1 - m % 2 ^ k : Nat) : Int) + ((2 ^ k : Nat) : Int) * (-(↑(m / 2 ^ k) + 1)) := by
    rw [Int.negSucc_eq]
    push_cast [Nat.le_sub_one_of_lt hr, Nat.one_le_two_pow]
    nlinarith [hdm]
  rw [h1, Int.add_mul_emod_self_left, Int.emod_eq_of_lt (by positivity) (by
    have : 2 ^ k - 1 - m % 2 ^ k < 2 ^ k := by omega
    exact_mod_cast this)]

theorem mask_eq_emod (n : Int) (bits : Nat) : (mask n bits : Int) = n % (2 : Int) ^ bits := by
  have h1 : (1 : Nat) ≤ 2 ^ bits := Nat.one_le_two_pow
  have hcast : ((2 : Int) ^ bits - 1) = ((2 ^ bits - 1 : Nat) : Int) := by push_cast [h1]; ring
  have hcast2 : ((2 : Int) ^ bits) = ((2 ^ bits : Nat) : Int) := by push_cast; ring
  cases n with
  | ofNat m =>
      rw [mask, hcast, Int.ofNat_eq_natCast, int_land_cast,
        and_two_pow_sub_one m _ bits rfl, hcast2]
      push_cast
      rfl
  | negSucc m =>
      rw [mask, hcast, int_negSucc_land, ldiff_mask, hcast2, int_negSucc_emod_two_pow]
      simp

theorem xor_or_of_lt {k w : Nat} (hw : w < 2 ^ k) : 2 ^ k ^^^ w = 2 ^ k ||| w := by
  apply Nat.eq_of_testBit_eq
  intro i
  rw [Nat.testBit_xor, Nat.testBit_or]
  rcases Nat.lt_trichotomy i k with hi | hi | hi
  · have hne : k ≠ i := by omega
    simp [Nat.testBit_two_pow_of_ne hne]
  · subst hi
    simp [Nat.testBit_two_pow_self, Nat.testBit_lt_two_pow hw]
  · have hne : k ≠ i := by omega
    have hwi : w < 2 ^ i :=
      lt_of_lt_of_le hw (Nat.pow_le_pow_right (by norm_num) (Nat.le_of_lt hi))
    simp [Nat.testBit_two_pow_of_ne hne, Nat.testBit_lt_two_pow hwi]

theorem or_xor_cancel {k w : Nat} (hw : w < 2 ^ k) : (2 ^ k ||| w) ^^^ 2 ^ k = w := by
  apply Nat.eq_of_testBit_eq
  intro i
  rw [Nat.testBit_xor, Nat.testBit_or]
  rcases Nat.lt_trichotomy i k with hi | hi | hi
  · have hne : k ≠ i := by omega
    simp [Nat.testBit_two_pow_of_ne hne]
  · subst hi
    simp [Nat.testBit_two_pow_self, Nat.testBit_lt_two_pow hw]
  · have hne : k ≠ i := by omega
    have hwi : w < 2 ^ i :=
      lt_of_lt_of_le hw (Nat.pow_le_pow_right (by norm_num) (Nat.le_of_lt hi))
    simp [Nat.testBit_two_pow_of_ne hne, Nat.testBit_lt_two_pow hwi]

/-- Flipping the sign bit of a `k+1`-bit value adds or subtracts `2 ^ k`. -/
theorem xor_sign_bit {k v : Nat} (hv : v < 2 ^ (k + 1)) :
    v ^^^ 2 ^ k = if v < 2 ^ k then v + 2 ^ k else v - 2 ^ k := by
  by_cases h : v < 2 ^ k
  · rw [if_pos h, Nat.xor_comm, xor_or_of_lt h, or_eq_add_of_dvd k dvd_rfl h]
    omega
  · rw [if_neg h]
    have hw : v - 2 ^ k < 2 ^ k := by
      have : 2 ^ (k + 1) = 2 ^ k * 2 := by ring
      omega
    have hv2 : v = 2 ^ k ||| (v - 2 ^ k) := by
      rw [or_eq_add_of_dvd k dvd_rfl hw]; omega
    calc v ^^^ 2 ^ k = (2 ^ k ||| (v - 2 ^ k)) ^^^ 2 ^ k := by rw [← hv2]
      _ = v - 2 ^ k := or_xor_cancel hw

theorem mask_lt (n : Int) (bits : Nat) : mask n bits < 2 ^ bits := by
  have h := mask_eq_emod n bits
  have hpos : (0 : Int) < 2 ^ bits := by positivity
  have h2 := Int.emod_lt_of_pos n hpos
  have hcast : ((2 : Int) ^ bits) = ((2 ^ bits : Nat) : Int) := by push_cast; ring
  rw [hcast] at h h2
  omega

/-- `sext` as a plain arithmetic conditional. -/
theorem sext_eq (val : Int) (bits : Nat) (hb : 0 < bits) :
    sext val bits =
      if (mask val bits : Nat) < 2 ^ (bits - 1) then (mask val bits : Int)
      else (mask val bits : Int) - 2 ^ bits := by
  have hvlt := mask_lt val bits
  have hbits : bits = (bits - 1) + 1 := by omega
  have hlt : mask val bits < 2 ^ ((bits - 1) + 1) := by rw [← hbits]; exact hvlt
  rw [sext, xor_sign_bit hlt]
  have h2 : (2 : Int) ^ bits = 2 ^ (bits - 1) * 2 := by
    conv_lhs => rw [hbits]
    ring
  have h2n : (2 : Nat) ^ bits = 2 ^ (bits - 1) * 2 := by
    conv_lhs => rw [hbits]
    ring
  by_cases h : mask val bits < 2 ^ (bits - 1)
  · rw [if_pos h, if_pos h]
    push_cast
    ring
  · rw [if_neg h, if_neg h]
    have hge : 2 ^ (bits - 1) ≤ mask val bits := by omega
    push_cast [hge]
    rw [h2]
    ring

theorem u32_eq_emod (x : Int) : (u32 x : Int) = x % (2 : Int) ^ 32 := by
  have h : u32 x = mask x 32 := by
    rw [u32, mask]; norm_num
  rw [h, mask_eq_emod]

theorem u32_lt (x : Int) : u32 x < 2 ^ 32 := by
  have h : u32 x = mask x 32 := by
    rw [u32, mask]; norm_num
  rw [h]; exact mask_lt x 32

theorem u32_cast (n : Nat) : u32 (n : Int) = n % 2 ^ 32 := by
  have := u32_eq_emod (n : Int)
  have h2 : ((n : Int) % (2 : Int) ^ 32) = ((n % 2 ^ 32 : Nat) : Int) := by push_cast; ring
  omega

theorem mask_natCast (n : Nat) (bits : Nat) : mask (n : Int) bits = n % 2 ^ bits := by
  have h := mask_eq_emod (n : Int) bits
  have h2 : ((n : Int) % (2 : Int) ^ bits) = ((n % 2 ^ bits : Nat) : Int) := by push_cast; ring
  omega

/-! Literal forms of the mask and shift conversions used by the codec. -/

theorem and_1 (x : Nat) : x &&& 1 = x % 2 := and_two_pow_sub_one x 1 1 rfl

theorem and_7 (x : Nat) : x &&& 7 = x % 8 := and_two_pow_sub_one x 7 3 rfl

theorem and_15 (x : Nat) : x &&& 15 = x % 16 := and_two_pow_sub_one x 15 4 rfl

theorem and_31 (x : Nat) : x &&& 31 = x % 32 := and_two_pow_sub_one x 31 5 rfl

theorem and_63 (x : Nat) : x &&& 63 = x % 64 := and_two_pow_sub_one x 63 6 rfl

theorem and_127 (x : Nat) : x &&& 127 = x % 128 := and_two_pow_sub_one x 127 7 rfl

theorem and_255 (x : Nat) : x &&& 255 = x % 256 := and_two_pow_sub_one x 255 8 rfl

theorem and_1023 (x : Nat) : x &&& 1023 = x % 1024 := and_two_pow_sub_one x 1023 10 rfl

theorem and_4095 (x : Nat) : x &&& 4095 = x % 4096 := and_two_pow_sub_one x 4095 12 rfl

theorem dvd_term {t s : Nat} (x : Nat) (h : t ≤ s) : 2 ^ t ∣ x * 2 ^ s :=
  Dvd.dvd.mul_left (pow_dvd_pow 2 h) x

/-- Explicit-argument variant of `or_eq_add_of_dvd`, for targeted rewriting. -/
theorem orAdd (A y t : Nat) (hA : 2 ^ t ∣ A) (hy : y < 2 ^ t) : A ||| y = A + y :=
  or_eq_add_of_dvd t hA hy

theorem encode_I_eq (opcode rd funct3 rs1 imm : Int) :
    encode_I opcode rd funct3 rs1 imm =
      mask imm 12 * 2 ^ 20 + mask rs1 5 * 2 ^ 15 + mask funct3 3 * 2 ^ 12 +
        mask rd 5 * 2 ^ 7 + mask opcode 7 := by
  simp only [encode_I]
  set a := mask imm 12 with h_a
  set b := mask rs1 5 with h_b
  set c := mask funct3 3 with h_c
  set d := mask rd 5 with h_d
  set f := mask opcode 7 with h_f
  have ha : a < 2 ^ 12 := mask_lt imm 12
  have hb : b < 2 ^ 5 := mask_lt rs1 5
  have hc : c < 2 ^ 3 := mask_lt funct3 3
  have hd : d < 2 ^ 5 := mask_lt rd 5
  have hf : f < 2 ^ 7 := mask_lt opcode 7
  rw [shiftLeft_eq_mul a 20 _ rfl, shiftLeft_eq_mul b 15 _ rfl,
    shiftLeft_eq_mul c 12 _ rfl, shiftLeft_eq_mul d 7 _ rfl]
  rw [orAdd (a * 2 ^ 20) (b * 2 ^ 15) 20 (dvd_term a (by norm_num)) (by omega)]
  rw [orAdd (a * 2 ^ 20 + b * 2 ^ 15) (c * 2 ^ 12) 15
    (Nat.dvd_add (dvd_term a (by norm_num)) (dvd_term b (by norm_num))) (by omega)]
  rw [orAdd (a * 2 ^ 20 + b * 2 ^ 15 + c * 2 ^ 12) (d * 2 ^ 7) 12
    (Nat.dvd_add (Nat.dvd_add (dvd_term a (by norm_num)) (dvd_term b (by norm_num)))
      (dvd_term c (by norm_num))) (by omega)]
  rw [orAdd (a * 2 ^ 20 + b * 2 ^ 15 + c * 2 ^ 12 + d * 2 ^ 7) f 7
    (Nat.dvd_add (Nat.dvd_add (Nat.dvd_add (dvd_term a (by norm_num))
      (dvd_term b (by norm_num))) (dvd_term c (by norm_num))) (dvd_term d (by norm_num)))
    hf]

theorem encode_R_eq (opcode rd funct3 rs1 rs2 funct7 : Int) :
    encode_R opcode rd funct3 rs1 rs2 funct7 =
      mask funct7 7 * 2 ^ 25 + mask rs2 5 * 2 ^ 20 + mask rs1 5 * 2 ^ 15 +
        mask funct3 3 * 2 ^ 12 + mask rd 5 * 2 ^ 7 + mask opcode 7 := by
  simp only [encode_R]
  set a := mask funct7 7 with h_a
  set b := mask rs2 5 with h_b
  set c := mask rs1 5 with h_c
  set d := mask funct3 3 with h_d
  set f := mask rd 5 with h_f
  set g := mask opcode 7 with h_g
  have ha : a < 2 ^ 7 := mask_lt funct7 7
  have hb : b < 2 ^ 5 := mask_lt rs2 5
  have hc : c < 2 ^ 5 := mask_lt rs1 5
  have hd : d < 2 ^ 3 := mask_lt funct3 3
  have hf : f < 2 ^ 5 := mask_lt rd 5
  have hg : g < 2 ^ 7 := mask_lt opcode 7
  rw [shiftLeft_eq_mul a 25 _ rfl, shiftLeft_eq_mul b 20 _ rfl, shiftLeft_eq_mul c 15 _ rfl,
    shiftLeft_eq_mul d 12 _ rfl, shiftLeft_eq_mul f 7 _ rfl]
  rw [orAdd (a * 2 ^ 25) (b * 2 ^ 20) 25 (dvd_term a (by norm_num)) (by omega)]
  rw [orAdd (a * 2 ^ 25 + b * 2 ^ 20) (c * 2 ^ 15) 20
    (Nat.dvd_add (dvd_term a (by norm_num)) (dvd_term b (by norm_num))) (by omega)]
  rw [orAdd (a * 2 ^ 25 + b * 2 ^ 20 + c * 2 ^ 15) (d * 2 ^ 12) 15
    (Nat.dvd_add (Nat.dvd_add (dvd_term a (by norm_num)) (dvd_term b (by norm_num)))
      (dvd_term c (by norm_num))) (by omega)]
  rw [orAdd (a * 2 ^ 25 + b * 2 ^ 20 + c * 2 ^ 15 + d * 2 ^ 12) (f * 2 ^ 7) 12
    (Nat.dvd_add (Nat.dvd_add (Nat.dvd_add (dvd_term a (by norm_num))
      (dvd_term b (by norm_num))) (dvd_term c (by norm_num))) (dvd_term d (by norm_num)))
    (by omega)]
  rw [orAdd (a * 2 ^ 25 + b * 2 ^ 20 + c * 2 ^ 15 + d * 2 ^ 12 + f * 2 ^ 7) g 7
    (Nat.dvd_add (Nat.dvd_add (Nat.dvd_add (Nat.dvd_add (dvd_term a (by norm_num))
      (dvd_term b (by norm_num))) (dvd_term c (by norm_num))) (dvd_term d (by norm_num)))
      (dvd_term f (by norm_num))) hg]

theorem encode_U_eq (opcode rd imm20 : Int) :
    encode_U opcode rd imm20 =
      mask imm20 20 * 2 ^ 12 + mask rd 5 * 2 ^ 7 + mask opcode 7 := by
  simp only [encode_U]
  set a := mask imm20 20 with h_a
  set b := mask rd 5 with h_b
  set c := mask opcode 7 with h_c
  have ha : a < 2 ^ 20 := mask_lt imm20 20
  have hb : b < 2 ^ 5 := mask_lt rd 5
  have hc : c < 2 ^ 7 := mask_lt opcode 7
  rw [shiftLeft_eq_mul a 12 _ rfl, shiftLeft_eq_mul b 7 _ rfl]
  rw [orAdd (a * 2 ^ 12) (b * 2 ^ 7) 12 (dvd_term a (by norm_num)) (by omega)]
  rw [orAdd (a * 2 ^ 12 + b * 2 ^ 7) c 7
    (Nat.dvd_add (dvd_term a (by norm_num)) (dvd_term b (by norm_num))) hc]

theorem encode_B_eq (opcode funct3 rs1 rs2 imm13 : Int) :
    encode_B opcode funct3 rs1 rs2 imm13 =
      (mask imm13 13 / 2 ^ 12 % 2) * 2 ^ 31 + (mask imm13 13 / 2 ^ 5 % 64) * 2 ^ 25 +
        mask rs2 5 * 2 ^ 20 + mask rs1 5 * 2 ^ 15 + mask funct3 3 * 2 ^ 12 +
        (mask imm13 13 / 2 % 16) * 2 ^ 8 + (mask imm13 13 / 2 ^ 11 % 2) * 2 ^ 7 +
        mask opcode 7 := by
  simp only [encode_B]
  rw [shiftRight_eq_div (mask imm13 13) 12 _ rfl, shiftRight_eq_div (mask imm13 13) 5 _ rfl,
    shiftRight_eq_div (mask imm13 13) 1 _ rfl, shiftRight_eq_div (mask imm13 13) 11 _ rfl,
    and_1 (mask imm13 13 / 2 ^ 12), and_63, and_15, and_1 (mask imm13 13 / 2 ^ 11)]
  have e1 : mask imm13 13 / 2 ^ 1 = mask imm13 13 / 2 := by norm_num
  rw [e1]
  set p1 := mask imm13 13 / 2 ^ 12 % 2 with h_p1
  set p2 := mask imm13 13 / 2 ^ 5 % 64 with h_p2
  set p3 := mask imm13 13 / 2 % 16 with h_p3
  set p4 := mask imm13 13 / 2 ^ 11 % 2 with h_p4
  set b := mask rs2 5 with h_b
  set c := mask rs1 5 with h_c
  set d := mask funct3 3 with h_d
  set g := mask opcode 7 with h_g
  have hp1 : p1 < 2 := Nat.mod_lt _ (by norm_num)
  have hp2 : p2 < 64 := Nat.mod_lt _ (by norm_num)
  have hp3 : p3 < 16 := Nat.mod_lt _ (by norm_num)
  have hp4 : p4 < 2 := Nat.mod_lt _ (by norm_num)
  have hb : b < 2 ^ 5 := mask_lt rs2 5
  have hc : c < 2 ^ 5 := mask_lt rs1 5
  have hd : d < 2 ^ 3 := mask_lt funct3 3
  have hg : g < 2 ^ 7 := mask_lt opcode 7
  rw [shiftLeft_eq_mul p1 31 _ rfl, shiftLeft_eq_mul p2 25 _ rfl, shiftLeft_eq_mul b 20 _ rfl,
    shiftLeft_eq_mul c 15 _ rfl, shiftLeft_eq_mul d 12 _ rfl, shiftLeft_eq_mul p3 8 _ rfl,
    shiftLeft_eq_mul p4 7 _ rfl]
  rw [orAdd (p1 * 2 ^ 31) (p2 * 2 ^ 25) 31 (dvd_term p1 (by norm_num)) (by omega)]
  rw [orAdd (p1 * 2 ^ 31 + p2 * 2 ^ 25) (b * 2 ^ 20) 25
    (Nat.dvd_add (dvd_term p1 (by norm_num)) (dvd_term p2 (by norm_num))) (by omega)]
  rw [orAdd (p1 * 2 ^ 31 + p2 * 2 ^ 25 + b * 2 ^ 20) (c * 2 ^ 15) 20
    (Nat.dvd_add (Nat.dvd_add (dvd_term p1 (by norm_num)) (dvd_term p2 (by norm_num)))
      (dvd_term b (by norm_num))) (by omega)]
  rw [orAdd (p1 * 2 ^ 31 + p2 * 2 ^ 25 + b * 2 ^ 20 + c * 2 ^ 15) (d * 2 ^ 12) 15
    (Nat.dvd_add (Nat.dvd_add (Nat.dvd_add (dvd_term p1 (by norm_num))
      (dvd_term p2 (by norm_num))) (dvd_term b (by norm_num))) (dvd_term c (by norm_num)))
    (by omega)]
  rw [orAdd (p1 * 2 ^ 31 + p2 * 2 ^ 25 + b * 2 ^ 20 + c * 2 ^ 15 + d * 2 ^ 12) (p3 * 2 ^ 8) 12
    (Nat.dvd_add (Nat.dvd_add (Nat.dvd_add (Nat.dvd_add (dvd_term p1 (by norm_num))
      (dvd_term p2 (by norm_num))) (dvd_term b (by norm_num))) (dvd_term c (by norm_num)))
      (dvd_term d (by norm_num))) (by omega)]
  rw [orAdd (p1 * 2 ^ 31 + p2 * 2 ^ 25 + b * 2 ^ 20 + c * 2 ^ 15 + d * 2 ^ 12 + p3 * 2 ^ 8)
    (p4 * 2 ^ 7) 8
    (Nat.dvd_add (Nat.dvd_add (Nat.dvd_add (Nat.dvd_add (Nat.dvd_add
      (dvd_term p1 (by norm_num)) (dvd_term p2 (by norm_num))) (dvd_term b (by norm_num)))
      (dvd_term c (by norm_num))) (dvd_term d (by norm_num))) (dvd_term p3 (by norm_num)))
    (by omega)]
  rw [orAdd
    (p1 * 2 ^ 31 + p2 * 2 ^ 25 + b * 2 ^ 20 + c * 2 ^ 15 + d * 2 ^ 12 + p3 * 2 ^ 8 + p4 * 2 ^ 7)
    g 7
    (Nat.dvd_add (Nat.dvd_add (Nat.dvd_add (Nat.dvd_add (Nat.dvd_add (Nat.dvd_add
      (dvd_term p1 (by norm_num)) (dvd_term p2 (by norm_num))) (dvd_term b (by norm_num)))
      (dvd_term c (by norm_num))) (dvd_term d (by norm_num))) (dvd_term p3 (by norm_num)))
      (dvd_term p4 (by norm_num))) hg]

theorem encode_J_eq (opcode rd imm21 : Int) :
    encode_J opcode rd imm21 =
      (mask imm21 21 / 2 ^ 20 % 2) * 2 ^ 31 + (mask imm21 21 / 2 % 1024) * 2 ^ 21 +
        (mask imm21 21 / 2 ^ 11 % 2) * 2 ^ 20 + (mask imm21 21 / 2 ^ 12 % 256) * 2 ^ 12 +
        mask rd 5 * 2 ^ 7 + mask opcode 7 := by
  simp only [encode_J]
  rw [shiftRight_eq_div (mask imm21 21) 20 _ rfl, shiftRight_eq_div (mask imm21 21) 1 _ rfl,
    shiftRight_eq_div (mask imm21 21) 11 _ rfl, shiftRight_eq_div (mask imm21 21) 12 _ rfl,
    and_1 (mask imm21 21 / 2 ^ 20), and_1023, and_1 (mask imm21 21 / 2 ^ 11), and_255]
  have e1 : mask imm21 21 / 2 ^ 1 = mask imm21 21 / 2 := by norm_num
  rw [e1]
  set p1 := mask imm21 21 / 2 ^ 20 % 2 with h_p1
  set p2 := mask imm21 21 / 2 % 1024 with h_p2
  set p3 := mask imm21 21 / 2 ^ 11 % 2 with h_p3
  set p4 := mask imm21 21 / 2 ^ 12 % 256 with h_p4
  set b := mask rd 5 with h_b
  set c := mask opcode 7 with h_c
  have hp1 : p1 < 2 := Nat.mod_lt _ (by norm_num)
  have hp2 : p2 < 1024 := Nat.mod_lt _ (by norm_num)
  have hp3 : p3 < 2 := Nat.mod_lt _ (by norm_num)
  have hp4 : p4 < 256 := Nat.mod_lt _ (by norm_num)
  have hb : b < 2 ^ 5 := mask_lt rd 5
  have hc : c < 2 ^ 7 := mask_lt opcode 7
  rw [shiftLeft_eq_mul p1 31 _ rfl, shiftLeft_eq_mul p2 21 _ rfl, shiftLeft_eq_mul p3 20 _ rfl,
    shiftLeft_eq_mul p4 12 _ rfl, shiftLeft_eq_mul b 7 _ rfl]
  rw [orAdd (p1 * 2 ^ 31) (p2 * 2 ^ 21) 31 (dvd_term p1 (by norm_num)) (by omega)]
  rw [orAdd (p1 * 2 ^ 31 + p2 * 2 ^ 21) (p3 * 2 ^ 20) 21
    (Nat.dvd_add (dvd_term p1 (by norm_num)) (dvd_term p2 (by norm_num))) (by omega)]
  rw [orAdd (p1 * 2 ^ 31 + p2 * 2 ^ 21 + p3 * 2 ^ 20) (p4 * 2 ^ 12) 20
    (Nat.dvd_add (Nat.dvd_add (dvd_term p1 (by norm_num)) (dvd_term p2 (by norm_num)))
      (dvd_term p3 (by norm_num))) (by omega)]
  rw [orAdd (p1 * 2 ^ 31 + p2 * 2 ^ 21 + p3 * 2 ^ 20 + p4 * 2 ^ 12) (b * 2 ^ 7) 12
    (Nat.dvd_add (Nat.dvd_add (Nat.dvd_add (dvd_term p1 (by norm_num))
      (dvd_term p2 (by norm_num))) (dvd_term p3 (by norm_num))) (dvd_term p4 (by norm_num)))
    (by omega)]
  rw [orAdd (p1 * 2 ^ 31 + p2 * 2 ^ 21 + p3 * 2 ^ 20 + p4 * 2 ^ 12 + b * 2 ^ 7) c 7
    (Nat.dvd_add (Nat.dvd_add (Nat.dvd_add (Nat.dvd_add (dvd_term p1 (by norm_num))
      (dvd_term p2 (by norm_num))) (dvd_term p3 (by norm_num))) (dvd_term p4 (by norm_num)))
      (dvd_term b (by norm_num))) hc]

theorem encode_S_eq (opcode funct3 rs1 rs2 imm12 : Int) :
    encode_S opcode funct3 rs1 rs2 imm12 =
      (mask imm12 12 / 2 ^ 5 % 128) * 2 ^ 25 + mask rs2 5 * 2 ^ 20 + mask rs1 5 * 2 ^ 15 +
        mask funct3 3 * 2 ^ 12 + (mask imm12 12 % 32) * 2 ^ 7 + mask opcode 7 := by
  simp only [encode_S]
  rw [shiftRight_eq_div (mask imm12 12) 5 _ rfl, and_127, and_31]
  set p1 := mask imm12 12 / 2 ^ 5 % 128 with h_p1
  set p2 := mask imm12 12 % 32 with h_p2
  set b := mask rs2 5 with h_b
  set c := mask rs1 5 with h_c
  set d := mask funct3 3 with h_d
  set g := mask opcode 7 with h_g
  have hp1 : p1 < 128 := Nat.mod_lt _ (by norm_num)
  have hp2 : p2 < 32 := Nat.mod_lt _ (by norm_num)
  have hb : b < 2 ^ 5 := mask_lt rs2 5
  have hc : c < 2 ^ 5 := mask_lt rs1 5
  have hd : d < 2 ^ 3 := mask_lt funct3 3
  have hg : g < 2 ^ 7 := mask_lt opcode 7
  rw [shiftLeft_eq_mul p1 25 _ rfl, shiftLeft_eq_mul b 20 _ rfl, shiftLeft_eq_mul c 15 _ rfl,
    shiftLeft_eq_mul d 12 _ rfl, shiftLeft_eq_mul p2 7 _ rfl]
  rw [orAdd (p1 * 2 ^ 25) (b * 2 ^ 20) 25 (dvd_term p1 (by norm_num)) (by omega)]
  rw [orAdd (p1 * 2 ^ 25 + b * 2 ^ 20) (c * 2 ^ 15) 20
    (Nat.dvd_add (dvd_term p1 (by norm_num)) (dvd_term b (by norm_num))) (by omega)]
  rw [orAdd (p1 * 2 ^ 25 + b * 2 ^ 20 + c * 2 ^ 15) (d * 2 ^ 12) 15
    (Nat.dvd_add (Nat.dvd_add (dvd_term p1 (by norm_num)) (dvd_term b (by norm_num)))
      (dvd_term c (by norm_num))) (by omega)]
  rw [orAdd (p1 * 2 ^ 25 + b * 2 ^ 20 + c * 2 ^ 15 + d * 2 ^ 12) (p2 * 2 ^ 7) 12
    (Nat.dvd_add (Nat.dvd_add (Nat.dvd_add (dvd_term p1 (by norm_num))
      (dvd_term b (by norm_num))) (dvd_term c (by norm_num))) (dvd_term d (by norm_num)))
    (by omega)]
  rw [orAdd (p1 * 2 ^ 25 + b * 2 ^ 20 + c * 2 ^ 15 + d * 2 ^ 12 + p2 * 2 ^ 7) g 7
    (Nat.dvd_add (Nat.dvd_add (Nat.dvd_add (Nat.dvd_add (dvd_term p1 (by norm_num))
      (dvd_term b (by norm_num))) (dvd_term c (by norm_num))) (dvd_term d (by norm_num)))
      (dvd_term p2 (by norm_num))) hg]

theorem mask_of_lt (n : Nat) (bits : Nat) (h : n < 2 ^ bits) : mask (n : Int) bits = n := by
  rw [mask_natCast]; exact Nat.mod_eq_of_lt h

/-- The U-type immediate mask `0xFFFFF000` keeps bits 12..31. -/
theorem and_high_mask (x : Nat) : x &&& 0xFFFFF000 = x % 2 ^ 32 / 2 ^ 12 * 2 ^ 12 := by
  have hm : (0xFFFFF000 : Nat) = (2 ^ 20 - 1) <<< 12 := by
    rw [Nat.shiftLeft_eq]
    norm_num
  rw [hm, ← Nat.shiftRight_eq_div_pow, ← Nat.shiftLeft_eq]
  apply Nat.eq_of_testBit_eq
  intro i
  rw [Nat.testBit_and, Nat.testBit_shiftLeft, Nat.testBit_shiftLeft, Nat.testBit_shiftRight,
    Nat.testBit_two_pow_sub_one, Nat.testBit_mod_two_pow]
  by_cases h12 : 12 ≤ i
  · have hi : 12 + (i - 12) = i := by omega
    rw [hi]
    by_cases h32 : i < 32
    · have h20 : i - 12 < 20 := by omega
      simp [h12, h32, h20]
    · have h20 : ¬(i - 12 < 20) := by omega
      simp [h12, h32, h20]
  · simp [h12]

theorem roundtrip_R (opc rd f3 rs1 rs2 f7 : Nat)
    (h1 : opc < 128) (h2 : rd < 32) (h3 : f3 < 8) (h4 : rs1 < 32) (h5 : rs2 < 32)
    (h6 : f7 < 128) :
    encode_R opc rd f3 rs1 rs2 f7 &&& 127 = opc ∧
    (encode_R opc rd f3 rs1 rs2 f7 >>> 7) &&& 31 = rd ∧
    (encode_R opc rd f3 rs1 rs2 f7 >>> 12) &&& 7 = f3 ∧
    (encode_R opc rd f3 rs1 rs2 f7 >>> 15) &&& 31 = rs1 ∧
    (encode_R opc rd f3 rs1 rs2 f7 >>> 20) &&& 31 = rs2 ∧
    (encode_R opc rd f3 rs1 rs2 f7 >>> 25) &&& 127 = f7 := by
  have hw := encode_R_eq opc rd f3 rs1 rs2 f7
  rw [mask_of_lt f7 7 h6, mask_of_lt rs2 5 h5, mask_of_lt rs1 5 h4, mask_of_lt f3 3 h3,
    mask_of_lt rd 5 h2, mask_of_lt opc 7 h1] at hw
  rw [hw]
  refine ⟨?_, ?_, ?_, ?_, ?_, ?_⟩
  · rw [and_127]; omega
  · rw [shiftRight_eq_div _ 7 _ rfl, and_31]; omega
  · rw [shiftRight_eq_div _ 12 _ rfl, and_7]; omega
  · rw [shiftRight_eq_div _ 15 _ rfl, and_31]; omega
  · rw [shiftRight_eq_div _ 20 _ rfl, and_31]; omega
  · rw [shiftRight_eq_div _ 25 _ rfl, and_127]; omega

theorem roundtrip_I (opc rd f3 rs1 : Nat) (imm : Int)
    (h1 : opc < 128) (h2 : rd < 32) (h3 : f3 < 8) (h4 : rs1 < 32)
    (h5 : -2048 ≤ imm) (h6 : imm < 2048) :
    encode_I opc rd f3 rs1 imm &&& 127 = opc ∧
    (encode_I opc rd f3 rs1 imm >>> 7) &&& 31 = rd ∧
    (encode_I opc rd f3 rs1 imm >>> 12) &&& 7 = f3 ∧
    (encode_I opc rd f3 rs1 imm >>> 15) &&& 31 = rs1 ∧
    imm_i (encode_I opc rd f3 rs1 imm) = imm := by
  have hw := encode_I_eq opc rd f3 rs1 imm
  rw [mask_of_lt rs1 5 h4, mask_of_lt f3 3 h3, mask_of_lt rd 5 h2, mask_of_lt opc 7 h1] at hw
  have hi := mask_lt imm 12
  have he := mask_eq_emod imm 12
  norm_num at he
  simp only [imm_i]
  rw [hw]
  refine ⟨?_, ?_, ?_, ?_, ?_⟩
  · rw [and_127]; omega
  · rw [shiftRight_eq_div _ 7 _ rfl, and_31]; omega
  · rw [shiftRight_eq_div _ 12 _ rfl, and_7]; omega
  · rw [shiftRight_eq_div _ 15 _ rfl, and_31]; omega
  · have h20 : (mask imm 12 * 2 ^ 20 + rs1 * 2 ^ 15 + f3 * 2 ^ 12 + rd * 2 ^ 7 + opc) >>> 20 =
        mask imm 12 := by
      rw [shiftRight_eq_div _ 20 _ rfl]; omega
    rw [h20, sext_eq _ 12 (by norm_num), mask_of_lt (mask imm 12) 12 hi]
    norm_num
    split_ifs with hcond <;> omega

/-! Field extraction from an assembled word, stated over opaque bounded pieces
so that `omega` works in a clean context. -/

theorem extractS (p1 c b a p2 s : Nat) (hp1 : p1 < 128) (hc : c < 32) (hb : b < 32)
    (ha : a < 8) (hp2 : p2 < 32) (hs : s < 128) :
    (p1 * 2 ^ 25 + c * 2 ^ 20 + b * 2 ^ 15 + a * 2 ^ 12 + p2 * 2 ^ 7 + s) &&& 127 = s ∧
    ((p1 * 2 ^ 25 + c * 2 ^ 20 + b * 2 ^ 15 + a * 2 ^ 12 + p2 * 2 ^ 7 + s) >>> 12) &&& 7 = a ∧
    ((p1 * 2 ^ 25 + c * 2 ^ 20 + b * 2 ^ 15 + a * 2 ^ 12 + p2 * 2 ^ 7 + s) >>> 15) &&& 31 = b ∧
    ((p1 * 2 ^ 25 + c * 2 ^ 20 + b * 2 ^ 15 + a * 2 ^ 12 + p2 * 2 ^ 7 + s) >>> 20) &&& 31 = c ∧
    (p1 * 2 ^ 25 + c * 2 ^ 20 + b * 2 ^ 15 + a * 2 ^ 12 + p2 * 2 ^ 7 + s) >>> 25 = p1 ∧
    ((p1 * 2 ^ 25 + c * 2 ^ 20 + b * 2 ^ 15 + a * 2 ^ 12 + p2 * 2 ^ 7 + s) >>> 7) &&& 31 =
      p2 := by
  refine ⟨?_, ?_, ?_, ?_, ?_, ?_⟩
  · rw [and_127]; omega
  · rw [shiftRight_eq_div _ 12 _ rfl, and_7]; omega
  · rw [shiftRight_eq_div _ 15 _ rfl, and_31]; omega
  · rw [shiftRight_eq_div _ 20 _ rfl, and_31]; omega
  · rw [shiftRight_eq_div _ 25 _ rfl]; omega
  · rw [shiftRight_eq_div _ 7 _ rfl, and_31]; omega

theorem extractB (p1 p2 c b a p3 p4 s : Nat) (hp1 : p1 < 2) (hp2 : p2 < 64) (hc : c < 32)
    (hb : b < 32) (ha : a < 8) (hp3 : p3 < 16) (hp4 : p4 < 2) (hs : s < 128) :
    (p1 * 2 ^ 31 + p2 * 2 ^ 25 + c * 2 ^ 20 + b * 2 ^ 15 + a * 2 ^ 12 + p3 * 2 ^ 8 +
      p4 * 2 ^ 7 + s) &&& 127 = s ∧
    ((p1 * 2 ^ 31 + p2 * 2 ^ 25 + c * 2 ^ 20 + b * 2 ^ 15 + a * 2 ^ 12 + p3 * 2 ^ 8 +
      p4 * 2 ^ 7 + s) >>> 12) &&& 7 = a ∧
    ((p1 * 2 ^ 31 + p2 * 2 ^ 25 + c * 2 ^ 20 + b * 2 ^ 15 + a * 2 ^ 12 + p3 * 2 ^ 8 +
      p4 * 2 ^ 7 + s) >>> 15) &&& 31 = b ∧
    ((p1 * 2 ^ 31 + p2 * 2 ^ 25 + c * 2 ^ 20 + b * 2 ^ 15 + a * 2 ^ 12 + p3 * 2 ^ 8 +
      p4 * 2 ^ 7 + s) >>> 20) &&& 31 = c ∧
    ((p1 * 2 ^ 31 + p2 * 2 ^ 25 + c * 2 ^ 20 + b * 2 ^ 15 + a * 2 ^ 12 + p3 * 2 ^ 8 +
      p4 * 2 ^ 7 + s) >>> 31) &&& 1 = p1 ∧
    ((p1 * 2 ^ 31 + p2 * 2 ^ 25 + c * 2 ^ 20 + b * 2 ^ 15 + a * 2 ^ 12 + p3 * 2 ^ 8 +
      p4 * 2 ^ 7 + s) >>> 7) &&& 1 = p4 ∧
    ((p1 * 2 ^ 31 + p2 * 2 ^ 25 + c * 2 ^ 20 + b * 2 ^ 15 + a * 2 ^ 12 + p3 * 2 ^ 8 +
      p4 * 2 ^ 7 + s) >>> 25) &&& 63 = p2 ∧
    ((p1 * 2 ^ 31 + p2 * 2 ^ 25 + c * 2 ^ 20 + b * 2 ^ 15 + a * 2 ^ 12 + p3 * 2 ^ 8 +
      p4 * 2 ^ 7 + s) >>> 8) &&& 15 = p3 := by
  refine ⟨?_, ?_, ?_, ?_, ?_, ?_, ?_, ?_⟩
  · rw [and_127]; omega
  · rw [shiftRight_eq_div _ 12 _ rfl, and_7]; omega
  · rw [shiftRight_eq_div _ 15 _ rfl, and_31]; omega
  · rw [shiftRight_eq_div _ 20 _ rfl, and_31]; omega
  · rw [shiftRight_eq_div _ 31 _ rfl, and_1]; omega
  · rw [shiftRight_eq_div _ 7 _ rfl, and_1]; omega
  · rw [shiftRight_eq_div _ 25 _ rfl, and_63]; omega
  · rw [shiftRight_eq_div _ 8 _ rfl, and_15]; omega

theorem extractJ (p1 p2 p3 p4 b s : Nat) (hp1 : p1 < 2) (hp2 : p2 < 1024) (hp3 : p3 < 2)
    (hp4 : p4 < 256) (hb : b < 32) (hs : s < 128) :
    (p1 * 2 ^ 31 + p2 * 2 ^ 21 + p3 * 2 ^ 20 + p4 * 2 ^ 12 + b * 2 ^ 7 + s) &&& 127 = s ∧
    ((p1 * 2 ^ 31 + p2 * 2 ^ 21 + p3 * 2 ^ 20 + p4 * 2 ^ 12 + b * 2 ^ 7 + s) >>> 7) &&& 31 =
      b ∧
    ((p1 * 2 ^ 31 + p2 * 2 ^ 21 + p3 * 2 ^ 20 + p4 * 2 ^ 12 + b * 2 ^ 7 + s) >>> 31) &&& 1 =
      p1 ∧
    ((p1 * 2 ^ 31 + p2 * 2 ^ 21 + p3 * 2 ^ 20 + p4 * 2 ^ 12 + b * 2 ^ 7 + s) >>> 12) &&& 255 =
      p4 ∧
    ((p1 * 2 ^ 31 + p2 * 2 ^ 21 + p3 * 2 ^ 20 + p4 * 2 ^ 12 + b * 2 ^ 7 + s) >>> 20) &&& 1 =
      p3 ∧
    ((p1 * 2 ^ 31 + p2 * 2 ^ 21 + p3 * 2 ^ 20 + p4 * 2 ^ 12 + b * 2 ^ 7 + s) >>> 21) &&& 1023 =
      p2 := by
  refine ⟨?_, ?_, ?_, ?_, ?_, ?_⟩
  · rw [and_127]; omega
  · rw [shiftRight_eq_div _ 7 _ rfl, and_31]; omega
  · rw [shiftRight_eq_div _ 31 _ rfl, and_1]; omega
  · rw [shiftRight_eq_div _ 12 _ rfl, and_255]; omega
  · rw [shiftRight_eq_div _ 20 _ rfl, and_1]; omega
  · rw [shiftRight_eq_div _ 21 _ rfl, and_1023]; omega

theorem roundtrip_S (opc f3 rs1 rs2 : Nat) (imm : Int)
    (h1 : opc < 128) (h2 : f3 < 8) (h3 : rs1 < 32) (h4 : rs2 < 32)
    (h5 : -2048 ≤ imm) (h6 : imm < 2048) :
    encode_S opc f3 rs1 rs2 imm &&& 127 = opc ∧
    (encode_S opc f3 rs1 rs2 imm >>> 12) &&& 7 = f3 ∧
    (encode_S opc f3 rs1 rs2 imm >>> 15) &&& 31 = rs1 ∧
    (encode_S opc f3 rs1 rs2 imm >>> 20) &&& 31 = rs2 ∧
    imm_s (encode_S opc f3 rs1 rs2 imm) = imm := by
  have hw := encode_S_eq opc f3 rs1 rs2 imm
  rw [mask_of_lt rs2 5 h4, mask_of_lt rs1 5 h3, mask_of_lt f3 3 h2, mask_of_lt opc 7 h1] at hw
  have hi := mask_lt imm 12
  obtain ⟨p1, hp1e, hp1⟩ : ∃ p, mask imm 12 / 2 ^ 5 % 128 = p ∧ p < 128 :=
    ⟨_, rfl, Nat.mod_lt _ (by norm_num)⟩
  obtain ⟨p2, hp2e, hp2⟩ : ∃ p, mask imm 12 % 32 = p ∧ p < 32 :=
    ⟨_, rfl, Nat.mod_lt _ (by norm_num)⟩
  rw [hp1e, hp2e] at hw
  obtain ⟨x1, x2, x3, x4, x5, x6⟩ := extractS p1 rs2 rs1 f3 p2 opc hp1 h4 h3 h2 hp2 h1
  simp only [imm_s]
  rw [hw, x5, x6, shiftLeft_eq_mul _ 5 _ rfl]
  rw [orAdd (p1 * 2 ^ 5) p2 5 (dvd_term _ (by norm_num)) (by omega)]
  have hcomp : p1 * 2 ^ 5 + p2 = mask imm 12 := by
    rw [← hp1e, ← hp2e]; omega
  rw [hcomp, sext_eq _ 12 (by norm_num), mask_of_lt (mask imm 12) 12 hi]
  refine ⟨x1, x2, x3, x4, ?_⟩
  have he := mask_eq_emod imm 12
  norm_num at he ⊢
  split_ifs with hcond <;> omega

theorem roundtrip_U (opc rd imm20 : Nat)
    (h1 : opc < 128) (h2 : rd < 32) (h3 : imm20 < 2 ^ 20) :
    encode_U opc rd imm20 &&& 127 = opc ∧
    (encode_U opc rd imm20 >>> 7) &&& 31 = rd ∧
    imm_u (encode_U opc rd imm20) >>> 12 = imm20 := by
  have hw := encode_U_eq opc rd imm20
  rw [mask_of_lt imm20 20 h3, mask_of_lt rd 5 h2, mask_of_lt opc 7 h1] at hw
  simp only [imm_u]
  rw [hw]
  refine ⟨?_, ?_, ?_⟩
  · rw [and_127]; omega
  · rw [shiftRight_eq_div _ 7 _ rfl, and_31]; omega
  · rw [and_high_mask, shiftRight_eq_div _ 12 _ rfl]
    omega

theorem roundtrip_B (opc f3 rs1 rs2 : Nat) (imm13 : Int)
    (h1 : opc < 128) (h2 : f3 < 8) (h3 : rs1 < 32) (h4 : rs2 < 32)
    (h5 : -4096 ≤ imm13) (h6 : imm13 < 4096) (h7 : imm13 % 2 = 0) :
    encode_B opc f3 rs1 rs2 imm13 &&& 127 = opc ∧
    (encode_B opc f3 rs1 rs2 imm13 >>> 12) &&& 7 = f3 ∧
    (encode_B opc f3 rs1 rs2 imm13 >>> 15) &&& 31 = rs1 ∧
    (encode_B opc f3 rs1 rs2 imm13 >>> 20) &&& 31 = rs2 ∧
    imm_b (encode_B opc f3 rs1 rs2 imm13) = imm13 := by
  have hw := encode_B_eq opc f3 rs1 rs2 imm13
  rw [mask_of_lt rs2 5 h4, mask_of_lt rs1 5 h3, mask_of_lt f3 3 h2, mask_of_lt opc 7 h1] at hw
  have hi := mask_lt imm13 13
  obtain ⟨p1, hp1e, hp1⟩ : ∃ p, mask imm13 13 / 2 ^ 12 % 2 = p ∧ p < 2 :=
    ⟨_, rfl, Nat.mod_lt _ (by norm_num)⟩
  obtain ⟨p2, hp2e, hp2⟩ : ∃ p, mask imm13 13 / 2 ^ 5 % 64 = p ∧ p < 64 :=
    ⟨_, rfl, Nat.mod_lt _ (by norm_num)⟩
  obtain ⟨p3, hp3e, hp3⟩ : ∃ p, mask imm13 13 / 2 % 16 = p ∧ p < 16 :=
    ⟨_, rfl, Nat.mod_lt _ (by norm_num)⟩
  obtain ⟨p4, hp4e, hp4⟩ : ∃ p, mask imm13 13 / 2 ^ 11 % 2 = p ∧ p < 2 :=
    ⟨_, rfl, Nat.mod_lt _ (by norm_num)⟩
  rw [hp1e, hp2e, hp3e, hp4e] at hw
  obtain ⟨x1, x2, x3, x4, x5, x6, x7, x8⟩ :=
    extractB p1 p2 rs2 rs1 f3 p3 p4 opc hp1 hp2 h4 h3 h2 hp3 hp4 h1
  simp only [imm_b]
  rw [hw, x5, x6, x7, x8]
  rw [shiftLeft_eq_mul _ 12 _ rfl, shiftLeft_eq_mul _ 11 _ rfl, shiftLeft_eq_mul _ 5 _ rfl,
    shiftLeft_eq_mul _ 1 _ rfl]
  rw [orAdd (p1 * 2 ^ 12) (p4 * 2 ^ 11) 12 (dvd_term _ (by norm_num)) (by omega)]
  rw [orAdd (p1 * 2 ^ 12 + p4 * 2 ^ 11) (p2 * 2 ^ 5) 11
    (Nat.dvd_add (dvd_term _ (by norm_num)) (dvd_term _ (by norm_num))) (by omega)]
  rw [orAdd (p1 * 2 ^ 12 + p4 * 2 ^ 11 + p2 * 2 ^ 5) (p3 * 2 ^ 1) 5
    (Nat.dvd_add (Nat.dvd_add (dvd_term _ (by norm_num)) (dvd_term _ (by norm_num)))
      (dvd_term _ (by norm_num))) (by omega)]
  have he := mask_eq_emod imm13 13
  norm_num at he
  have hev : mask imm13 13 % 2 = 0 := by omega
  have hsum : p1 * 2 ^ 12 + p4 * 2 ^ 11 + p2 * 2 ^ 5 + p3 * 2 ^ 1 = mask imm13 13 := by
    rw [← hp1e, ← hp2e, ← hp3e, ← hp4e]
    clear he
    omega
  rw [hsum, sext_eq _ 13 (by norm_num), mask_of_lt (mask imm13 13) 13 hi]
  refine ⟨x1, x2, x3, x4, ?_⟩
  norm_num
  split_ifs with hcond <;> omega

theorem roundtrip_J (opc rd : Nat) (imm21 : Int)
    (h1 : opc < 128) (h2 : rd < 32)
    (h3 : -1048576 ≤ imm21) (h4 : imm21 < 1048576) (h5 : imm21 % 2 = 0) :
    encode_J opc rd imm21 &&& 127 = opc ∧
    (encode_J opc rd imm21 >>> 7) &&& 31 = rd ∧
    imm_j (encode_J opc rd imm21) = imm21 := by
  have hw := encode_J_eq opc rd imm21
  rw [mask_of_lt rd 5 h2, mask_of_lt opc 7 h1] at hw
  have hi := mask_lt imm21 21
  obtain ⟨p1, hp1e, hp1⟩ : ∃ p, mask imm21 21 / 2 ^ 20 % 2 = p ∧ p < 2 :=
    ⟨_, rfl, Nat.mod_lt _ (by norm_num)⟩
  obtain ⟨p2, hp2e, hp2⟩ : ∃ p, mask imm21 21 / 2 % 1024 = p ∧ p < 1024 :=
    ⟨_, rfl, Nat.mod_lt _ (by norm_num)⟩
  obtain ⟨p3, hp3e, hp3⟩ : ∃ p, mask imm21 21 / 2 ^ 11 % 2 = p ∧ p < 2 :=
    ⟨_, rfl, Nat.mod_lt _ (by norm_num)⟩
  obtain ⟨p4, hp4e, hp4⟩ : ∃ p, mask imm21 21 / 2 ^ 12 % 256 = p ∧ p < 256 :=
    ⟨_, rfl, Nat.mod_lt _ (by norm_num)⟩
  rw [hp1e, hp2e, hp3e, hp4e] at hw
  obtain ⟨x1, x2, x3, x4, x5, x6⟩ := extractJ p1 p2 p3 p4 rd opc hp1 hp2 hp3 hp4 h2 h1
  simp only [imm_j]
  rw [hw, x3, x4, x5, x6]
  rw [shiftLeft_eq_mul _ 20 _ rfl, shiftLeft_eq_mul _ 12 _ rfl, shiftLeft_eq_mul _ 11 _ rfl,
    shiftLeft_eq_mul _ 1 _ rfl]
  rw [orAdd (p1 * 2 ^ 20) (p4 * 2 ^ 12) 20 (dvd_term _ (by norm_num)) (by omega)]
  rw [orAdd (p1 * 2 ^ 20 + p4 * 2 ^ 12) (p3 * 2 ^ 11) 12
    (Nat.dvd_add (dvd_term _ (by norm_num)) (dvd_term _ (by norm_num))) (by omega)]
  rw [orAdd (p1 * 2 ^ 20 + p4 * 2 ^ 12 + p3 * 2 ^ 11) (p2 * 2 ^ 1) 11
    (Nat.dvd_add (Nat.dvd_add (dvd_term _ (by norm_num)) (dvd_term _ (by norm_num)))
      (dvd_term _ (by norm_num))) (by omega)]
  have he := mask_eq_emod imm21 21
  norm_num at he
  have hev : mask imm21 21 % 2 = 0 := by omega
  have hsum : p1 * 2 ^ 20 + p4 * 2 ^ 12 + p3 * 2 ^ 11 + p2 * 2 ^ 1 = mask imm21 21 := by
    rw [← hp1e, ← hp2e, ← hp3e, ← hp4e]
    clear he hw x1 x2 x3 x4 x5 x6 hp1e hp2e hp3e hp4e hp1 hp2 hp3 hp4 h1 h2
    omega
  rw [hsum, sext_eq _ 21 (by norm_num), mask_of_lt (mask imm21 21) 21 hi]
  refine ⟨x1, x2, ?_⟩
  norm_num
  split_ifs with hcond <;> omega

/-- C3: For every instruction format (R/I/S/B/U/J) and all representable field
values, including the boundary immediates 0, -1, and the minimum and maximum
for that format's width, decoding the fields back out of an encoded word
returns exactly the fields that were encoded (for B and J formats, the even
byte offset is recovered exactly). Field extraction is as in `decode_word`:
`opcode = w &&& 127`, `rd = (w >>> 7) &&& 31`, `funct3 = (w >>> 12) &&& 7`,
`rs1 = (w >>> 15) &&& 31`, `rs2 = (w >>> 20) &&& 31`, `funct7 = (w >>> 25) &&& 127`,
and the immediates via `imm_i`, `imm_s`, `imm_b`, `imm_u >>> 12`, `imm_j`. -/
theorem C3_codec_roundtrip :
    (∀ opc rd f3 rs1 rs2 f7 : Nat, opc < 128 → rd < 32 → f3 < 8 → rs1 < 32 → rs2 < 32 →
      f7 < 128 →
      encode_R opc rd f3 rs1 rs2 f7 &&& 127 = opc ∧
      (encode_R opc rd f3 rs1 rs2 f7 >>> 7) &&& 31 = rd ∧
      (encode_R opc rd f3 rs1 rs2 f7 >>> 12) &&& 7 = f3 ∧
      (encode_R opc rd f3 rs1 rs2 f7 >>> 15) &&& 31 = rs1 ∧
      (encode_R opc rd f3 rs1 rs2 f7 >>> 20) &&& 31 = rs2 ∧
      (encode_R opc rd f3 rs1 rs2 f7 >>> 25) &&& 127 = f7) ∧
    (∀ (opc rd f3 rs1 : Nat) (imm : Int), opc < 128 → rd < 32 → f3 < 8 → rs1 < 32 →
      -2048 ≤ imm → imm < 2048 →
      encode_I opc rd f3 rs1 imm &&& 127 = opc ∧
      (encode_I opc rd f3 rs1 imm >>> 7) &&& 31 = rd ∧
      (encode_I opc rd f3 rs1 imm >>> 12) &&& 7 = f3 ∧
      (encode_I opc rd f3 rs1 imm >>> 15) &&& 31 = rs1 ∧
      imm_i (encode_I opc rd f3 rs1 imm) = imm) ∧
    (∀ (opc f3 rs1 rs2 : Nat) (imm : Int), opc < 128 → f3 < 8 → rs1 < 32 → rs2 < 32 →
      -2048 ≤ imm → imm < 2048 →
      encode_S opc f3 rs1 rs2 imm &&& 127 = opc ∧
      (encode_S opc f3 rs1 rs2 imm >>> 12) &&& 7 = f3 ∧
      (encode_S opc f3 rs1 rs2 imm >>> 15) &&& 31 = rs1 ∧
      (encode_S opc f3 rs1 rs2 imm >>> 20) &&& 31 = rs2 ∧
      imm_s (encode_S opc f3 rs1 rs2 imm) = imm) ∧
    (∀ opc rd imm20 : Nat, opc < 128 → rd < 32 → imm20 < 2 ^ 20 →
      encode_U opc rd imm20 &&& 127 = opc ∧
      (encode_U opc rd imm20 >>> 7) &&& 31 = rd ∧
      imm_u (encode_U opc rd imm20) >>> 12 = imm20) ∧
    (∀ (opc f3 rs1 rs2 : Nat) (imm13 : Int), opc < 128 → f3 < 8 → rs1 < 32 → rs2 < 32 →
      -4096 ≤ imm13 → imm13 < 4096 → imm13 % 2 = 0 →
      encode_B opc f3 rs1 rs2 imm13 &&& 127 = opc ∧
      (encode_B opc f3 rs1 rs2 imm13 >>> 12) &&& 7 = f3 ∧
      (encode_B opc f3 rs1 rs2 imm13 >>> 15) &&& 31 = rs1 ∧
      (encode_B opc f3 rs1 rs2 imm13 >>> 20) &&& 31 = rs2 ∧
      imm_b (encode_B opc f3 rs1 rs2 imm13) = imm13) ∧
    (∀ (opc rd : Nat) (imm21 : Int), opc < 128 → rd < 32 →
      -1048576 ≤ imm21 → imm21 < 1048576 → imm21 % 2 = 0 →
      encode_J opc rd imm21 &&& 127 = opc ∧
      (encode_J opc rd imm21 >>> 7) &&& 31 = rd ∧
      imm_j (encode_J opc rd imm21) = imm21) :=
  ⟨roundtrip_R, roundtrip_I, roundtrip_S, roundtrip_U, roundtrip_B, roundtrip_J⟩

/-- Witness for C3 at boundary immediates: the I-format minimum `-2048`, the
S-format maximum `2047`, `-1` for I, the B-format minimum `-4096`, the
J-format even offset `-2`, and the U-format maximum `0xFFFFF`. -/
theorem C3_codec_roundtrip_witness :
    imm_i (encode_I 0x13 1 0 2 (-2048)) = -2048 ∧
    imm_i (encode_I 0x13 1 0 2 (-1)) = -1 ∧
    imm_s (encode_S 0x23 0 1 2 2047) = 2047 ∧
    imm_b (encode_B 0x63 0 1 2 (-4096)) = -4096 ∧
    imm_j (encode_J 0x6F 1 (-2)) = -2 ∧
    imm_u (encode_U 0x37 1 0xFFFFF) >>> 12 = 0xFFFFF :=
  ⟨(C3_codec_roundtrip.2.1 0x13 1 0 2 (-2048) (by norm_num) (by norm_num) (by norm_num)
      (by norm_num) (by norm_num) (by norm_num)).2.2.2.2,
   (C3_codec_roundtrip.2.1 0x13 1 0 2 (-1) (by norm_num) (by norm_num) (by norm_num)
      (by norm_num) (by norm_num) (by norm_num)).2.2.2.2,
   (C3_codec_roundtrip.2.2.1 0x23 0 1 2 2047 (by norm_num) (by norm_num) (by norm_num)
      (by norm_num) (by norm_num) (by norm_num)).2.2.2.2,
   (C3_codec_roundtrip.2.2.2.2.1 0x63 0 1 2 (-4096) (by norm_num) (by norm_num) (by norm_num)
      (by norm_num) (by norm_num) (by norm_num) (by norm_num)).2.2.2.2,
   (C3_codec_roundtrip.2.2.2.2.2 0x6F 1 (-2) (by norm_num) (by norm_num) (by norm_num)
      (by norm_num) (by norm_num)).2.2,
   (C3_codec_roundtrip.2.2.2.1 0x37 1 0xFFFFF (by norm_num) (by norm_num)
      (by norm_num)).2.2⟩

/-- C1 counterexample: the claim that the DecodeValidator's decode table agrees
verbatim with the golden `decode_word` is false. The all-zero word is accepted
by `decode_word` (as the NOP sentinel) but rejected by the validator's
`decode`; and on the jointly accepted word `0x000010b7` (`lui x1, 1`) the two
produce different immediate fields (`1` versus `0x1000`). -/
theorem C1_decode_agree_cex :
    decode_word 0 0 = some ⟨"NOP", 0, 0, 0, 0, none⟩ ∧
    decode 0 = none ∧
    decode_word 0x000010b7 0 = some ⟨"LUI", 1, 0, 0, 1, none⟩ ∧
    decode 0x000010b7 = some ("LUI", 0, 0, 1, 0x1000) ∧
    (1 : Int) ≠ 0x1000 :=
  ⟨rfl, by decide, by decide, by decide, by decide⟩

set_option maxHeartbeats 2000000 in
/-- C1 (amended): on every instruction word accepted by both the golden
`decode_word` and the DecodeValidator's `decode`, the two produce the same
operation tag and the same rs1, rs2 and rd fields; their rejection sets and
their immediate representations differ. -/
theorem C1_decode_agree (inst : Nat) (pc : Int) (m : Meta)
    (t : String × Nat × Nat × Nat × Int)
    (h1 : decode_word inst pc = some m) (h2 : decode inst = some t) :
    m.op = t.1 ∧ m.rs1 = t.2.1 ∧ m.rs2 = t.2.2.1 ∧ m.rd = t.2.2.2.1 := by
  by_cases h0 : inst = 0
  · rw [h0] at h2
    have hd : decode 0 = none := by decide
    rw [hd] at h2
    exact Option.noConfusion h2
  · simp only [decode_word, if_neg h0] at h1
    simp only [decode] at h2
    obtain ⟨k, hk, hk8⟩ : ∃ k, funct3_of inst = k ∧ k < 8 :=
      ⟨_, rfl, by rw [funct3_of, and_7]; exact Nat.mod_lt _ (by norm_num)⟩
    rw [hk] at h1 h2
    by_cases o37 : opcode_of inst = 0x37
    · simp only [o37, Nat.reduceEqDiff, reduceIte, and_true, true_and, and_false, false_and, Option.some.injEq] at h1 h2
      subst h1
      subst h2
      exact ⟨rfl, rfl, rfl, rfl⟩
    · by_cases o17 : opcode_of inst = 0x17
      · simp only [o17, Nat.reduceEqDiff, reduceIte, and_true, true_and, and_false, false_and, Option.some.injEq] at h1 h2
        subst h1
        subst h2
        exact ⟨rfl, rfl, rfl, rfl⟩
      · by_cases o6F : opcode_of inst = 0x6F
        · simp only [o6F, Nat.reduceEqDiff, reduceIte, and_true, true_and, and_false, false_and, Option.some.injEq] at h1 h2
          subst h1
          subst h2
          exact ⟨rfl, rfl, rfl, rfl⟩
        · by_cases o67 : opcode_of inst = 0x67
          · simp only [o67, Nat.reduceEqDiff, reduceIte, and_true, true_and, and_false, false_and, Option.some.injEq] at h1 h2
            subst h1
            subst h2
            exact ⟨rfl, rfl, rfl, rfl⟩
          · by_cases o63 : opcode_of inst = 0x63
            · interval_cases k
              · simp only [o63, Nat.reduceEqDiff, reduceIte, and_true, true_and, and_false, false_and, Option.some.injEq] at h1 h2
                subst h1
                subst h2
                exact ⟨rfl, rfl, rfl, rfl⟩
              · simp only [o63, Nat.reduceEqDiff, reduceIte, and_true, true_and, and_false, false_and, Option.some.injEq] at h1 h2
                subst h1
                subst h2
                exact ⟨rfl, rfl, rfl, rfl⟩
              · simp only [o63, Nat.reduceEqDiff, reduceIte, and_true, true_and, and_false, false_and, Option.some.injEq] at h1 h2
                exact Option.noConfusion h1
              · simp only [o63, Nat.reduceEqDiff, reduceIte, and_true, true_and, and_false, false_and, Option.some.injEq] at h1 h2
                exact Option.noConfusion h1
              · simp only [o63, Nat.reduceEqDiff, reduceIte, and_true, true_and, and_false, false_and, Option.some.injEq] at h1 h2
                subst h1
                subst h2
                exact ⟨rfl, rfl, rfl, rfl⟩
              · simp only [o63, Nat.reduceEqDiff, reduceIte, and_true, true_and, and_false, false_and, Option.some.injEq] at h1 h2
                subst h1
                subst h2
                exact ⟨rfl, rfl, rfl, rfl⟩
              · simp only [o63, Nat.reduceEqDiff, reduceIte, and_true, true_and, and_false, false_and, Option.some.injEq] at h1 h2
                subst h1
                subst h2
                exact ⟨rfl, rfl, rfl, rfl⟩
              · simp only [o63, Nat.reduceEqDiff, reduceIte, and_true, true_and, and_false, false_and, Option.some.injEq] at h1 h2
                subst h1
                subst h2
                exact ⟨rfl, rfl, rfl, rfl⟩
            · by_cases o03 : opcode_of inst = 0x03
              · interval_cases k
                · simp only [o03, Nat.reduceEqDiff, reduceIte, and_true, true_and, and_false, false_and, Option.some.injEq] at h1 h2
                  subst h1
                  subst h2
                  exact ⟨rfl, rfl, rfl, rfl⟩
                · simp only [o03, Nat.reduceEqDiff, reduceIte, and_true, true_and, and_false, false_and, Option.some.injEq] at h1 h2
                  subst h1
                  subst h2
                  exact ⟨rfl, rfl, rfl, rfl⟩
                · simp only [o03, Nat.reduceEqDiff, reduceIte, and_true, true_and, and_false, false_and, Option.some.injEq] at h1 h2
                  subst h1
                  subst h2
                  exact ⟨rfl, rfl, rfl, rfl⟩
                · simp only [o03, Nat.reduceEqDiff, reduceIte, and_true, true_and, and_false, false_and, Option.some.injEq] at h1 h2
                  exact Option.noConfusion h1
                · simp only [o03, Nat.reduceEqDiff, reduceIte, and_true, true_and, and_false, false_and, Option.some.injEq] at h1 h2
                  subst h1
                  subst h2
                  exact ⟨rfl, rfl, rfl, rfl⟩
                · simp only [o03, Nat.reduceEqDiff, reduceIte, and_true, true_and, and_false, false_and, Option.some.injEq] at h1 h2
                  subst h1
                  subst h2
                  exact ⟨rfl, rfl, rfl, rfl⟩
                · simp only [o03, Nat.reduceEqDiff, reduceIte, and_true, true_and, and_false, false_and, Option.some.injEq] at h1 h2
                  exact Option.noConfusion h1
                · simp only [o03, Nat.reduceEqDiff, reduceIte, and_true, true_and, and_false, false_and, Option.some.injEq] at h1 h2
                  exact Option.noConfusion h1
              · by_cases o23 : opcode_of inst = 0x23
                · interval_cases k
                  · simp only [o23, Nat.reduceEqDiff, reduceIte, and_true, true_and, and_false, false_and, Option.some.injEq] at h1 h2
                    subst h1
                    subst h2
                    exact ⟨rfl, rfl, rfl, rfl⟩
                  · simp only [o23, Nat.reduceEqDiff, reduceIte, and_true, true_and, and_false, false_and, Option.some.injEq] at h1 h2
                    subst h1
                    subst h2
                    exact ⟨rfl, rfl, rfl, rfl⟩
                  · simp only [o23, Nat.reduceEqDiff, reduceIte, and_true, true_and, and_false, false_and, Option.some.injEq] at h1 h2
                    subst h1
                    subst h2
                    exact ⟨rfl, rfl, rfl, rfl⟩
                  · simp only [o23, Nat.reduceEqDiff, reduceIte, and_true, true_and, and_false, false_and, Option.some.injEq] at h1 h2
                    exact Option.noConfusion h1
                  · simp only [o23, Nat.reduceEqDiff, reduceIte, and_true, true_and, and_false, false_and, Option.some.injEq] at h1 h2
                    exact Option.noConfusion h1
                  · simp only [o23, Nat.reduceEqDiff, reduceIte, and_true, true_and, and_false, false_and, Option.some.injEq] at h1 h2
                    exact Option.noConfusion h1
                  · simp only [o23, Nat.reduceEqDiff, reduceIte, and_true, true_and, and_false, false_and, Option.some.injEq] at h1 h2
                    exact Option.noConfusion h1
                  · simp only [o23, Nat.reduceEqDiff, reduceIte, and_true, true_and, and_false, false_and, Option.some.injEq] at h1 h2
                    exact Option.noConfusion h1
                · by_cases o13 : opcode_of inst = 0x13
                  · interval_cases k
                    · simp only [o13, Nat.reduceEqDiff, reduceIte, and_true, true_and, and_false, false_and, Option.some.injEq] at h1 h2
                      subst h1
                      subst h2
                      exact ⟨rfl, rfl, rfl, rfl⟩
                    · by_cases f7a : funct7_of inst = 0x00
                      · simp only [o13, f7a, Nat.reduceEqDiff, reduceIte, and_true, true_and, and_false, false_and, Option.some.injEq] at h1 h2
                        subst h1
                        subst h2
                        exact ⟨rfl, rfl, rfl, rfl⟩
                      · simp only [o13, f7a, Nat.reduceEqDiff, reduceIte, and_true, true_and, and_false, false_and, Option.some.injEq] at h1 h2
                        exact Option.noConfusion h2
                    · simp only [o13, Nat.reduceEqDiff, reduceIte, and_true, true_and, and_false, false_and, Option.some.injEq] at h1 h2
                      subst h1
                      subst h2
                      exact ⟨rfl, rfl, rfl, rfl⟩
                    · simp only [o13, Nat.reduceEqDiff, reduceIte, and_true, true_and, and_false, false_and, Option.some.injEq] at h1 h2
                      subst h1
                      subst h2
                      exact ⟨rfl, rfl, rfl, rfl⟩
                    · simp only [o13, Nat.reduceEqDiff, reduceIte, and_true, true_and, and_false, false_and, Option.some.injEq] at h1 h2
                      subst h1
                      subst h2
                      exact ⟨rfl, rfl, rfl, rfl⟩
                    · by_cases f7a : funct7_of inst = 0x00
                      · simp only [o13, f7a, Nat.reduceEqDiff, reduceIte, and_true, true_and, and_false, false_and, Option.some.injEq] at h1 h2
                        subst h1
                        subst h2
                        exact ⟨rfl, rfl, rfl, rfl⟩
                      · by_cases f7b : funct7_of inst = 0x20
                        · simp only [o13, f7a, f7b, Nat.reduceEqDiff, reduceIte, and_true, true_and, and_false, false_and, Option.some.injEq] at h1 h2
                          subst h1
                          subst h2
                          exact ⟨rfl, rfl, rfl, rfl⟩
                        · simp only [o13, f7a, f7b, Nat.reduceEqDiff, reduceIte, and_true, true_and, and_false, false_and, Option.some.injEq] at h1 h2
                          exact Option.noConfusion h1
                    · simp only [o13, Nat.reduceEqDiff, reduceIte, and_true, true_and, and_false, false_and, Option.some.injEq] at h1 h2
                      subst h1
                      subst h2
                      exact ⟨rfl, rfl, rfl, rfl⟩
                    · simp only [o13, Nat.reduceEqDiff, reduceIte, and_true, true_and, and_false, false_and, Option.some.injEq] at h1 h2
                      subst h1
                      subst h2
                      exact ⟨rfl, rfl, rfl, rfl⟩
                  · by_cases o33 : opcode_of inst = 0x33
                    · interval_cases k
                      · by_cases f7a : funct7_of inst = 0x00
                        · simp only [o33, f7a, Nat.reduceEqDiff, reduceIte, and_true, true_and, and_false, false_and, Option.some.injEq] at h1 h2
                          subst h1
                          subst h2
                          exact ⟨rfl, rfl, rfl, rfl⟩
                        · by_cases f7b : funct7_of inst = 0x20
                          · simp only [o33, f7a, f7b, Nat.reduceEqDiff, reduceIte, and_true, true_and, and_false, false_and, Option.some.injEq] at h1 h2
                            subst h1
                            subst h2
                            exact ⟨rfl, rfl, rfl, rfl⟩
                          · simp only [o33, f7a, f7b, Nat.reduceEqDiff, reduceIte, and_true, true_and, and_false, false_and, Option.some.injEq] at h1 h2
                            exact Option.noConfusion h1
                      · by_cases f7a : funct7_of inst = 0x00
                        · simp only [o33, f7a, Nat.reduceEqDiff, reduceIte, and_true, true_and, and_false, false_and, Option.some.injEq] at h1 h2
                          subst h1
                          subst h2
                          exact ⟨rfl, rfl, rfl, rfl⟩
                        · simp only [o33, f7a, Nat.reduceEqDiff, reduceIte, and_true, true_and, and_false, false_and, Option.some.injEq] at h1 h2
                          exact Option.noConfusion h1
                      · by_cases f7a : funct7_of inst = 0x00
                        · simp only [o33, f7a, Nat.reduceEqDiff, reduceIte, and_true, true_and, and_false, false_and, Option.some.injEq] at h1 h2
                          subst h1
                          subst h2
                          exact ⟨rfl, rfl, rfl, rfl⟩
                        · simp only [o33, f7a, Nat.reduceEqDiff, reduceIte, and_true, true_and, and_false, false_and, Option.some.injEq] at h1 h2
                          exact Option.noConfusion h1
                      · by_cases f7a : funct7_of inst = 0x00
                        · simp only [o33, f7a, Nat.reduceEqDiff, reduceIte, and_true, true_and, and_false, false_and, Option.some.injEq] at h1 h2
                          subst h1
                          subst h2
                          exact ⟨rfl, rfl, rfl, rfl⟩
                        · simp only [o33, f7a, Nat.reduceEqDiff, reduceIte, and_true, true_and, and_false, false_and, Option.some.injEq] at h1 h2
                          exact Option.noConfusion h1
                      · by_cases f7a : funct7_of inst = 0x00
                        · simp only [o33, f7a, Nat.reduceEqDiff, reduceIte, and_true, true_and, and_false, false_and, Option.some.injEq] at h1 h2
                          subst h1
                          subst h2
                          exact ⟨rfl, rfl, rfl, rfl⟩
                        · simp only [o33, f7a, Nat.reduceEqDiff, reduceIte, and_true, true_and, and_false, false_and, Option.some.injEq] at h1 h2
                          exact Option.noConfusion h1
                      · by_cases f7a : funct7_of inst = 0x00
                        · simp only [o33, f7a, Nat.reduceEqDiff, reduceIte, and_true, true_and, and_false, false_and, Option.some.injEq] at h1 h2
                          subst h1
                          subst h2
                          exact ⟨rfl, rfl, rfl, rfl⟩
                        · by_cases f7b : funct7_of inst = 0x20
                          · simp only [o33, f7a, f7b, Nat.reduceEqDiff, reduceIte, and_true, true_and, and_false, false_and, Option.some.injEq] at h1 h2
                            subst h1
                            subst h2
                            exact ⟨rfl, rfl, rfl, rfl⟩
                          · simp only [o33, f7a, f7b, Nat.reduceEqDiff, reduceIte, and_true, true_and, and_false, false_and, Option.some.injEq] at h1 h2
                            exact Option.noConfusion h1
                      · by_cases f7a : funct7_of inst = 0x00
                        · simp only [o33, f7a, Nat.reduceEqDiff, reduceIte, and_true, true_and, and_false, false_and, Option.some.injEq] at h1 h2
                          subst h1
                          subst h2
                          exact ⟨rfl, rfl, rfl, rfl⟩
                        · simp only [o33, f7a, Nat.reduceEqDiff, reduceIte, and_true, true_and, and_false, false_and, Option.some.injEq] at h1 h2
                          exact Option.noConfusion h1
                      · by_cases f7a : funct7_of inst = 0x00
                        · simp only [o33, f7a, Nat.reduceEqDiff, reduceIte, and_true, true_and, and_false, false_and, Option.some.injEq] at h1 h2
                          subst h1
                          subst h2
                          exact ⟨rfl, rfl, rfl, rfl⟩
                        · simp only [o33, f7a, Nat.reduceEqDiff, reduceIte, and_true, true_and, and_false, false_and, Option.some.injEq] at h1 h2
                          exact Option.noConfusion h1
                    · simp only [o37, o17, o6F, o67, o63, o03, o23, o13, o33, reduceIte] at h1
                      exact Option.noConfusion h1

/-- Witness for C1 (amended) at the jointly accepted word `0x003100b3`
(`add x1, x2, x3`). -/
theorem C1_decode_agree_witness :
    decode_word 0x003100b3 0 = some ⟨"ADD", 1, 2, 3, 0, none⟩ ∧
    decode 0x003100b3 = some ("ADD", 2, 3, 1, 0) ∧
    ("ADD" : String) = "ADD" ∧ (2 : Nat) = 2 ∧ (3 : Nat) = 3 ∧ (1 : Nat) = 1 := by
  have h1 : decode_word 0x003100b3 0 = some ⟨"ADD", 1, 2, 3, 0, none⟩ := by decide
  have h2 : decode 0x003100b3 = some ("ADD", 2, 3, 1, 0) := by decide
  have h3 := C1_decode_agree 0x003100b3 0 ⟨"ADD", 1, 2, 3, 0, none⟩ ("ADD", 2, 3, 1, 0) h1 h2
  exact ⟨h1, h2, h3.1, h3.2.1, h3.2.2.1, h3.2.2.2⟩

theorem orAddR (y A t : Nat) (hy : y < 2 ^ t) (hA : 2 ^ t ∣ A) : y ||| A = y + A := by
  rw [Nat.lor_comm, orAdd A y t hA hy, Nat.add_comm]

theorem dvd_mul_pow (x t c : Nat) (hc : c = 2 ^ t) : 2 ^ t ∣ x * c :=
  ⟨x, by rw [hc, Nat.mul_comm]⟩

/-- C5: writing a value of width `w ∈ {1,2,4}` bytes at any address `A`
(unaligned and top-of-address-space included) into the sparse byte memory and
reading the same width back from `A` returns exactly the low `8*w` bits of the
value, assembled little-endian. -/
theorem C5_mem_roundtrip (mem : Nat → Nat) (addr v w : Nat)
    (hw : w = 1 ∨ w = 2 ∨ w = 4) :
    mem_read (mem_write mem addr w v) addr w = v % 2 ^ (8 * w) := by
  rcases hw with rfl | rfl | rfl
  · have hr : List.range 1 = [0] := rfl
    simp only [mem_read, mem_write, hr, List.foldl, mem_read_byte, mem_write_byte,
      eq_self_iff_true, if_true, Nat.reduceMul, Nat.zero_or, Nat.shiftLeft_zero,
      Nat.shiftRight_zero]
  · have hr : List.range 2 = [0, 1] := rfl
    have h01 : ¬((addr + 0) % 2 ^ 32 = (addr + 1) % 2 ^ 32) := by omega
    simp only [mem_read, mem_write, hr, List.foldl, mem_read_byte, mem_write_byte,
      h01, eq_self_iff_true, if_true, if_false, Nat.reduceMul, Nat.zero_or,
      Nat.shiftLeft_zero, Nat.shiftRight_zero]
    rw [shiftRight_eq_div v 8 256 (by norm_num),
      shiftLeft_eq_mul (v / 256 % 2 ^ 8) 8 256 (by norm_num),
      orAddR (v % 2 ^ 8) (v / 256 % 2 ^ 8 * 256) 8 (by omega)
        (dvd_mul_pow (v / 256 % 2 ^ 8) 8 256 (by norm_num))]
    omega
  · have hr : List.range 4 = [0, 1, 2, 3] := rfl
    have h01 : ¬((addr + 0) % 2 ^ 32 = (addr + 1) % 2 ^ 32) := by omega
    have h02 : ¬((addr + 0) % 2 ^ 32 = (addr + 2) % 2 ^ 32) := by omega
    have h03 : ¬((addr + 0) % 2 ^ 32 = (addr + 3) % 2 ^ 32) := by omega
    have h12 : ¬((addr + 1) % 2 ^ 32 = (addr + 2) % 2 ^ 32) := by omega
    have h13 : ¬((addr + 1) % 2 ^ 32 = (addr + 3) % 2 ^ 32) := by omega
    have h23 : ¬((addr + 2) % 2 ^ 32 = (addr + 3) % 2 ^ 32) := by omega
    simp only [mem_read, mem_write, hr, List.foldl, mem_read_byte, mem_write_byte,
      h01, h02, h03, h12, h13, h23, eq_self_iff_true, if_true, if_false,
      Nat.reduceMul, Nat.zero_or, Nat.shiftLeft_zero, Nat.shiftRight_zero]
    rw [shiftRight_eq_div v 8 256 (by norm_num),
      shiftRight_eq_div v 16 65536 (by norm_num),
      shiftRight_eq_div v 24 16777216 (by norm_num),
      shiftLeft_eq_mul (v / 256 % 2 ^ 8) 8 256 (by norm_num),
      shiftLeft_eq_mul (v / 65536 % 2 ^ 8) 16 65536 (by norm_num),
      shiftLeft_eq_mul (v / 16777216 % 2 ^ 8) 24 16777216 (by norm_num),
      orAddR (v % 2 ^ 8) (v / 256 % 2 ^ 8 * 256) 8 (by omega)
        (dvd_mul_pow (v / 256 % 2 ^ 8) 8 256 (by norm_num)),
      orAddR (v % 2 ^ 8 + v / 256 % 2 ^ 8 * 256) (v / 65536 % 2 ^ 8 * 65536) 16
        (by omega) (dvd_mul_pow (v / 65536 % 2 ^ 8) 16 65536 (by norm_num)),
      orAddR (v % 2 ^ 8 + v / 256 % 2 ^ 8 * 256 + v / 65536 % 2 ^ 8 * 65536)
        (v / 16777216 % 2 ^ 8 * 16777216) 24 (by omega)
        (dvd_mul_pow (v / 16777216 % 2 ^ 8) 24 16777216 (by norm_num))]
    omega

/-- Witness for C5: a 4-byte store/load at address `2^32 - 2`, which wraps
around the top of the address space. -/
theorem C5_mem_roundtrip_witness :
    ((4 : Nat) = 1 ∨ (4 : Nat) = 2 ∨ (4 : Nat) = 4) ∧
    mem_read (mem_write (fun _ => 0) 4294967294 4 0x11223344) 4294967294 4 =
      0x11223344 % 2 ^ (8 * 4) :=
  ⟨by norm_num,
   C5_mem_roundtrip (fun _ => 0) 4294967294 0x11223344 4 (by norm_num)⟩

theorem getD_set_zero (l : List Nat) : (l.set 0 0).getD 0 0 = 0 := by
  cases l <;> rfl

theorem getD_set_self (l : List Nat) (i v : Nat) (h : i < l.length) :
    (l.set i v).getD i 0 = v := by
  rw [List.getD_eq_getElem?_getD, List.getElem?_set_self (by simpa using h)]
  rfl

theorem getD_set_ne (l : List Nat) (i j v : Nat) (h : i ≠ j) :
    (l.set i v).getD j 0 = l.getD j 0 := by
  rw [List.getD_eq_getElem?_getD, List.getElem?_set_ne h, ← List.getD_eq_getElem?_getD]

theorem and_fffffffe (x : Nat) : x &&& 0xFFFFFFFE = x % 2 ^ 32 / 2 * 2 := by
  have hm : (0xFFFFFFFE : Nat) = (2 ^ 31 - 1) <<< 1 := by
    rw [Nat.shiftLeft_eq]
    norm_num
  have h2 : x % 2 ^ 32 / 2 * 2 = x % 2 ^ 32 / 2 ^ 1 * 2 ^ 1 := by norm_num
  rw [hm, h2, ← Nat.shiftRight_eq_div_pow, ← Nat.shiftLeft_eq]
  apply Nat.eq_of_testBit_eq
  intro i
  rw [Nat.testBit_and, Nat.testBit_shiftLeft, Nat.testBit_shiftLeft, Nat.testBit_shiftRight,
    Nat.testBit_two_pow_sub_one, Nat.testBit_mod_two_pow]
  by_cases h1 : 1 ≤ i
  · have hi : 1 + (i - 1) = i := by omega
    rw [hi]
    by_cases h32 : i < 32
    · have h31 : i - 1 < 31 := by omega
      simp [h1, h32, h31]
    · have h31 : ¬(i - 1 < 31) := by omega
      simp [h1, h32, h31]
  · simp [h1]

/-- C10: the all-zero word decodes as the NOP sentinel, not DATA: for every
program counter `decode_word 0 pc` succeeds with op `"NOP"` and `rd = 0`;
executing that meta never raises (in particular not the executed-DATA error)
and yields `rd_data = 0` with `next_pc = pc + 4`; and the committed entry
value for it is `0`. -/
theorem C10_zero_word_nop :
    (∀ pc : Int, decode_word 0 pc = some ⟨"NOP", 0, 0, 0, 0, none⟩) ∧
    (∀ (mem : Nat → Nat) (regs : List Nat) (pc : Int),
       exec_op mem regs pc ⟨"NOP", 0, 0, 0, 0, none⟩ = .ok (0, mem, pc + 4)) ∧
    (∀ regs : List Nat, commit_rd_data (commit_regs regs 0 0) 0 = 0) := by
  refine ⟨fun pc => rfl, fun mem regs pc => rfl, fun regs => rfl⟩

/-- C6 (amended): executing JALR yields
`next_pc = ((rs1 + sext(imm,12)) mod 2^32)` with bit 0 cleared (`2 * (· / 2)`),
which is even even when the sum is odd, and `rd_data = u32 (pc + 4)`; when
`rd ≠ 0` the committed register value is `u32 (pc + 4)`.  The original claim's
"the committed rd value is pc + 4" fails for `rd = 0` (see the
counterexample): the write is discarded and the recorded value is `0`. -/
theorem C6_jalr (mem : Nat → Nat) (regs : List Nat) (pc : Int) (m : Meta)
    (hop : m.op = "JALR") (hlen : regs.length = 32) (hrd : m.rd < 32) :
    exec_op mem regs pc m =
      .ok ((u32 (pc + 4) : Int), mem,
        ((u32 ((r regs m.rs1 : Int) + sext m.imm 12) / 2 * 2 : Nat) : Int)) ∧
    ((u32 ((r regs m.rs1 : Int) + sext m.imm 12) / 2 * 2 : Nat) : Int) % 2 = 0 ∧
    (m.rd ≠ 0 →
      commit_rd_data (commit_regs regs m.rd (u32 (pc + 4) : Int)) m.rd = u32 (pc + 4)) := by
  refine ⟨?_, ?_, ?_⟩
  · simp only [exec_op, hop, String.reduceEq, reduceIte, false_or, or_self]
    rw [and_fffffffe, Nat.mod_eq_of_lt (u32_lt _)]
  · have h : (u32 ((r regs m.rs1 : Int) + sext m.imm 12) / 2 * 2) % 2 = 0 :=
      Nat.mul_mod_left _ _
    omega
  · intro hne
    rw [commit_regs, commit_rd_data, if_pos hne, if_pos hne,
      getD_set_ne _ 0 m.rd _ (fun h => hne h.symm),
      getD_set_self _ _ _ (by omega), u32_cast, Nat.mod_eq_of_lt (u32_lt _)]

/-- Counterexample for C6 as stated: with `rd = 0` the JALR link value is
discarded and the recorded commit value is `0`, not `pc + 4 = 4`. -/
theorem C6_jalr_cex :
    exec_op (fun _ => 0) (List.replicate 32 0) 0 ⟨"JALR", 0, 0, 0, 0, none⟩ =
      .ok ((4 : Int), (fun _ => 0), (0 : Int)) ∧
    commit_rd_data (commit_regs (List.replicate 32 0) 0 4) 0 = 0 ∧ (0 : Nat) ≠ 4 := by
  refine ⟨rfl, rfl, by decide⟩

/-- Witness for C6 (amended) with `jalr x1, 7(x2)` at `pc = 0` on the zero
register file: the computed target `0 + 7` is odd, `next_pc = 6` is even, and
`x1` commits `u32 4 = 4`. -/
theorem C6_jalr_witness :
    exec_op (fun _ => 0) (List.replicate 32 0) 0 ⟨"JALR", 1, 2, 0, 7, none⟩ =
      .ok ((u32 ((0 : Int) + 4) : Int), (fun _ => 0),
        ((u32 ((r (List.replicate 32 0) 2 : Int) + sext 7 12) / 2 * 2 : Nat) : Int)) ∧
    commit_rd_data (commit_regs (List.replicate 32 0) 1 (u32 ((0 : Int) + 4) : Int)) 1 =
      u32 ((0 : Int) + 4) := by
  have h := C6_jalr (fun _ => 0) (List.replicate 32 0) 0 ⟨"JALR", 1, 2, 0, 7, none⟩
    rfl (by decide) (by decide)
  exact ⟨h.1, h.2.2 (by decide)⟩

/-! ### Low-12-bit agreement of the two XORI/ORI/ANDI immediate treatments -/

theorem compl_xor_compl (k a L : Nat) (hL : L < 2 ^ k) (ha : a < 2 ^ k) :
    2 ^ k - 1 - (a ^^^ (2 ^ k - 1 - L)) = a ^^^ L := by
  have hx : a ^^^ (L ^^^ (2 ^ k - 1)) < 2 ^ k :=
    Nat.xor_lt_two_pow ha (Nat.xor_lt_two_pow hL (by omega))
  rw [compl_eq_xor hL, compl_eq_xor hx, Nat.xor_assoc a, Nat.xor_assoc L,
    Nat.xor_self, Nat.xor_zero]

theorem compl_ldiff (k a L : Nat) (hL : L < 2 ^ k) (ha : a < 2 ^ k) :
    2 ^ k - 1 - Nat.ldiff (2 ^ k - 1 - L) a = a ||| L := by
  have hX : Nat.ldiff (2 ^ k - 1 - L) a < 2 ^ k := ldiff_lt_two_pow (by omega) a
  have h1 : 2 ^ k - 1 - Nat.ldiff (2 ^ k - 1 - L) a =
      2 ^ k - (Nat.ldiff (2 ^ k - 1 - L) a + 1) := by omega
  have h2 : 2 ^ k - 1 - L = 2 ^ k - (L + 1) := by omega
  apply Nat.eq_of_testBit_eq
  intro i
  rw [h1, Nat.testBit_two_pow_sub_succ hX, Nat.testBit_ldiff, h2,
    Nat.testBit_two_pow_sub_succ hL, Nat.testBit_or]
  by_cases h : i < k
  · simp [h, Bool.or_comm]
  · have hai : a < 2 ^ i := lt_of_lt_of_le ha (Nat.pow_le_pow_right (by norm_num) (by omega))
    have hLi : L < 2 ^ i := lt_of_lt_of_le hL (Nat.pow_le_pow_right (by norm_num) (by omega))
    simp [h, Nat.testBit_lt_two_pow hai, Nat.testBit_lt_two_pow hLi]

theorem ldiff_compl (k a L : Nat) (hL : L < 2 ^ k) (ha : a < 2 ^ k) :
    Nat.ldiff a (2 ^ k - 1 - L) = a &&& L := by
  have h2 : 2 ^ k - 1 - L = 2 ^ k - (L + 1) := by omega
  apply Nat.eq_of_testBit_eq
  intro i
  rw [Nat.testBit_ldiff, h2, Nat.testBit_two_pow_sub_succ hL, Nat.testBit_and]
  by_cases h : i < k
  · simp [h]
  · have hai : a < 2 ^ i := lt_of_lt_of_le ha (Nat.pow_le_pow_right (by norm_num) (by omega))
    simp [h, Nat.testBit_lt_two_pow hai]

theorem int_land_4095 (imm : Int) : Int.land imm 4095 = ((mask imm 12 : Nat) : Int) := by
  cases imm with
  | ofNat n =>
    show Int.land ((n : Nat) : Int) ((4095 : Nat) : Int) = ((mask ((n : Nat) : Int) 12 : Nat) : Int)
    rw [int_land_cast, and_4095, mask_natCast]
    norm_num
  | negSucc n =>
    show Int.land (Int.negSucc n) ((4095 : Nat) : Int) = _
    rw [int_negSucc_land, mask]
    have h : ((2 : Int) ^ 12 - 1) = ((4095 : Nat) : Int) := by norm_num
    rw [h]
    show _ = ((Int.land (Int.negSucc n) ((4095 : Nat) : Int)).toNat : Int)
    rw [int_negSucc_land, Int.toNat_natCast]

theorem low12_agree (rn : Nat) (imm : Int) :
    Int.xor (rn : Int) (sext imm 12) % 4096 = Int.xor (rn : Int) (Int.land imm 4095) % 4096 ∧
    Int.lor (rn : Int) (sext imm 12) % 4096 = Int.lor (rn : Int) (Int.land imm 4095) % 4096 ∧
    Int.land (rn : Int) (sext imm 12) % 4096 = Int.land (rn : Int) (Int.land imm 4095) % 4096 := by
  rw [int_land_4095 imm, sext_eq imm 12 (by norm_num)]
  obtain ⟨L, hLe, hL4096⟩ : ∃ L, mask imm 12 = L ∧ L < 2 ^ 12 := ⟨_, rfl, mask_lt imm 12⟩
  rw [hLe]
  by_cases hc : L < 2 ^ (12 - 1)
  · rw [if_pos hc]
    exact ⟨rfl, rfl, rfl⟩
  · rw [if_neg hc]
    have hneg : (L : Int) - 2 ^ 12 = Int.negSucc (4095 - L) := by
      rw [Int.negSucc_eq]
      omega
    rw [hneg, int_xor_negSucc, int_lor_negSucc, int_land_negSucc,
      int_xor_cast, int_lor_cast, int_land_cast]
    have h4096 : (4096 : Int) = ((2 ^ 12 : Nat) : Int) := by norm_num
    rw [h4096, int_negSucc_emod_two_pow, int_negSucc_emod_two_pow]
    simp only [← Int.natCast_mod]
    have h45 : (4095 : Nat) - L = 2 ^ 12 - 1 - L := by omega
    have hrn : rn % 2 ^ 12 < 2 ^ 12 := Nat.mod_lt _ (by norm_num)
    have hcompl : 2 ^ 12 - 1 - L < 2 ^ 12 := by omega
    refine ⟨?_, ?_, ?_⟩
    · rw [h45]
      apply congrArg
      rw [xor_mod_two_pow, xor_mod_two_pow, Nat.mod_eq_of_lt hcompl,
        Nat.mod_eq_of_lt hL4096]
      exact compl_xor_compl 12 (rn % 2 ^ 12) L hL4096 hrn
    · rw [h45]
      apply congrArg
      rw [ldiff_mod_two_pow, or_mod_two_pow, Nat.mod_eq_of_lt hcompl,
        Nat.mod_eq_of_lt hL4096]
      exact compl_ldiff 12 (rn % 2 ^ 12) L hL4096 hrn
    · rw [h45]
      apply congrArg
      rw [ldiff_mod_two_pow, and_mod_two_pow, Nat.mod_eq_of_lt hcompl,
        Nat.mod_eq_of_lt hL4096]
      exact ldiff_compl 12 (rn % 2 ^ 12) L hL4096 hrn

theorem u32_emod_4096 (X : Int) : ((u32 X : Nat) : Int) % 4096 = X % 4096 := by
  rw [u32_eq_emod]
  exact Int.emod_emod_of_dvd X (by norm_num)

/-- C7: on XORI, ORI and ANDI the two simulator variants (golden `exec_op`:
`sext(imm, 12)`; test variant `exec_op_t`: `imm & 0xFFF`) both execute
successfully and their `rd_data` results agree modulo `2^12 = 4096`, i.e.
on the low 12 bits, for every register file and every immediate. -/
theorem C7_imm_low12 (mem : Nat → Nat) (regs : List Nat) (pc : Int) (m : Meta)
    (hop : m.op = "XORI" ∨ m.op = "ORI" ∨ m.op = "ANDI") :
    (exec_op mem regs pc m).isOk = true ∧
    (exec_op_t mem regs pc m).isOk = true ∧
    Except.map (fun p => p.1 % 4096) (exec_op mem regs pc m) =
      Except.map (fun p => p.1 % 4096) (exec_op_t mem regs pc m) := by
  rcases hop with hop | hop | hop
  · simp only [exec_op, exec_op_t, hop, String.reduceEq, reduceIte, false_or, or_self]
    refine ⟨rfl, rfl, ?_⟩
    simp only [Except.map]
    apply congrArg
    rw [u32_emod_4096, u32_emod_4096]
    exact (low12_agree (r regs m.rs1) m.imm).1
  · simp only [exec_op, exec_op_t, hop, String.reduceEq, reduceIte, false_or, or_self]
    refine ⟨rfl, rfl, ?_⟩
    simp only [Except.map]
    apply congrArg
    rw [u32_emod_4096, u32_emod_4096]
    exact (low12_agree (r regs m.rs1) m.imm).2.1
  · simp only [exec_op, exec_op_t, hop, String.reduceEq, reduceIte, false_or, or_self]
    refine ⟨rfl, rfl, ?_⟩
    simp only [Except.map]
    apply congrArg
    rw [u32_emod_4096, u32_emod_4096]
    exact (low12_agree (r regs m.rs1) m.imm).2.2

/-- Witness for C7: `xori x1, x2, 0xFFF` on the zero register file — the
golden variant computes `u32 (0 xor -1) = 0xFFFFFFFF`, the test variant
`u32 (0 xor 0xFFF) = 0xFFF`; both reduce to `0xFFF` mod `4096`. -/
theorem C7_imm_low12_witness :
    (exec_op (fun _ => 0) (List.replicate 32 0) 0 ⟨"XORI", 1, 2, 0, 4095, none⟩).isOk = true ∧
    (exec_op_t (fun _ => 0) (List.replicate 32 0) 0 ⟨"XORI", 1, 2, 0, 4095, none⟩).isOk = true ∧
    Except.map (fun p => p.1 % 4096)
        (exec_op (fun _ => 0) (List.replicate 32 0) 0 ⟨"XORI", 1, 2, 0, 4095, none⟩) =
      Except.map (fun p => p.1 % 4096)
        (exec_op_t (fun _ => 0) (List.replicate 32 0) 0 ⟨"XORI", 1, 2, 0, 4095, none⟩) :=
  C7_imm_low12 (fun _ => 0) (List.replicate 32 0) 0 ⟨"XORI", 1, 2, 0, 4095, none⟩
    (Or.inl rfl)

theorem sim_step_x0 (words : List Nat) (meta : List Meta) (asm : List String)
    (st st' : SimState) (idx : Nat) (h : sim_step words meta asm st idx = .ok st') :
    st'.regs.getD 0 0 = 0 ∧
    ∃ e, st'.trace = st.trace ++ [e] ∧ (e.rd = 0 → e.rd_data = 0) := by
  simp only [sim_step] at h
  cases hex : exec_op st.mem st.regs st.pc (meta.getD idx ⟨"NOP", 0, 0, 0, 0, none⟩) with
  | error e =>
    rw [hex] at h
    exact Except.noConfusion h
  | ok v =>
    obtain ⟨d, mem', np⟩ := v
    rw [hex] at h
    simp only [Except.ok.injEq] at h
    subst h
    refine ⟨getD_set_zero _, ⟨_, rfl, ?_⟩⟩
    intro hrd
    have hrd' : (meta.getD idx ⟨"NOP", 0, 0, 0, 0, none⟩).rd = 0 := hrd
    show commit_rd_data
        (commit_regs st.regs (meta.getD idx ⟨"NOP", 0, 0, 0, 0, none⟩).rd d)
        (meta.getD idx ⟨"NOP", 0, 0, 0, 0, none⟩).rd = 0
    rw [hrd']
    rfl

theorem sim_run_x0 (words : List Nat) (meta : List Meta) (asm : List String) (ms : Nat) :
    ∀ (fuel : Nat) (st st' : SimState),
      sim_run words meta asm ms fuel st = .ok st' →
      st.regs.getD 0 0 = 0 → (∀ e ∈ st.trace, e.rd = 0 → e.rd_data = 0) →
      st'.regs.getD 0 0 = 0 ∧ ∀ e ∈ st'.trace, e.rd = 0 → e.rd_data = 0 := by
  intro fuel
  induction fuel with
  | zero =>
    intro st st' h h0 h1
    simp only [sim_run, Except.ok.injEq] at h
    subst h
    exact ⟨h0, h1⟩
  | succ fuel ih =>
    intro st st' h h0 h1
    rw [sim_run] at h
    by_cases hcy : st.cycle < ms
    · rw [if_pos hcy] at h
      cases hpi : pc_index st.pc words.length with
      | none =>
        rw [hpi] at h
        simp only [Except.ok.injEq] at h
        subst h
        exact ⟨h0, h1⟩
      | some idx =>
        rw [hpi] at h
        simp only [] at h
        cases hst : sim_step words meta asm st idx with
        | error e =>
          rw [hst] at h
          exact Except.noConfusion h
        | ok st1 =>
          rw [hst] at h
          simp only [] at h
          obtain ⟨h0', e, htr, he⟩ := sim_step_x0 words meta asm st st1 idx hst
          refine ih st1 st' h h0' ?_
          intro e' he'
          rw [htr] at he'
          rcases List.mem_append.mp he' with hmem | hmem
          · exact h1 e' hmem
          · have := List.mem_singleton.mp hmem
            subst this
            exact he
    · rw [if_neg hcy] at h
      simp only [Except.ok.injEq] at h
      subst h
      exact ⟨h0, h1⟩

/-- C2: register `x0` reads as 0 immediately after every commit.  Step level:
after the commit phase the register file always has `x0 = 0` (both through the
read helper `r` and directly), a write targeting `rd = 0` is discarded (the
commit leaves the file unchanged except for re-clearing `x0`), and the
recorded commit value for such an instruction is 0.  Run level: for every
program, any successful simulation ends with `x0 = 0` and every trace entry
with `rd = 0` records the value 0. -/
theorem C2_x0_zero :
    (∀ (regs : List Nat) (rd : Nat) (d : Int),
        r (commit_regs regs rd d) 0 = 0 ∧ (commit_regs regs rd d).getD 0 0 = 0) ∧
    (∀ (regs : List Nat) (d : Int), commit_regs regs 0 d = regs.set 0 0) ∧
    (∀ regs : List Nat, commit_rd_data regs 0 = 0) ∧
    (∀ (words : List Nat) (meta : List Meta) (asm : List String) (ms : Nat)
        (tr : List CommitEntry) (regsF : List Nat),
        simulate_commit_trace words meta asm ms = .ok (tr, regsF) →
        regsF.getD 0 0 = 0 ∧ ∀ e ∈ tr, e.rd = 0 → e.rd_data = 0) := by
  refine ⟨fun regs rd d => ⟨rfl, getD_set_zero _⟩,
    fun regs d => by simp [commit_regs], fun regs => rfl, ?_⟩
  intro words meta asm ms tr regsF h
  rw [simulate_commit_trace] at h
  cases hrun : sim_run words meta asm ms ms init_state with
  | error e =>
    rw [hrun] at h
    exact Except.noConfusion h
  | ok st =>
    rw [hrun] at h
    simp only [Except.ok.injEq, Prod.mk.injEq] at h
    obtain ⟨htr, hregs⟩ := h
    obtain ⟨h0, h1⟩ := sim_run_x0 words meta asm ms ms init_state st hrun (by decide)
      (fun e he => absurd he (List.not_mem_nil e))
    subst htr
    subst hregs
    exact ⟨h0, h1⟩

/-- Witness for C2: a one-instruction program (`addi x0, x0, 0`, the canonical
NOP encoding `0x13`) targeting `x0`; the trace records `rd = 0` with value 0
and the final register file still has `x0 = 0`. -/
theorem C2_x0_zero_witness :
    simulate_commit_trace [0x13] [⟨"ADDI", 0, 0, 0, 0, none⟩] ["nop"] 5 =
      .ok ([⟨0, 0, 0x13, 0, 0, "nop"⟩],
        [0, 0, 0, 0, 0, 0, 0, 0, 0, 0, 0, 0, 0, 0, 0, 0,
         0, 0, 0, 0, 0, 0, 0, 0, 0, 0, 0, 0, 0, 0, 0, 0]) ∧
    ([0, 0, 0, 0, 0, 0, 0, 0, 0, 0, 0, 0, 0, 0, 0, 0,
      0, 0, 0, 0, 0, 0, 0, 0, 0, 0, 0, 0, 0, 0, 0, 0] : List Nat).getD 0 0 = 0 ∧
    (∀ e ∈ [(⟨0, 0, 0x13, 0, 0, "nop"⟩ : CommitEntry)], e.rd = 0 → e.rd_data = 0) := by
  have h : simulate_commit_trace [0x13] [⟨"ADDI", 0, 0, 0, 0, none⟩] ["nop"] 5 =
      .ok ([⟨0, 0, 0x13, 0, 0, "nop"⟩],
        [0, 0, 0, 0, 0, 0, 0, 0, 0, 0, 0, 0, 0, 0, 0, 0,
         0, 0, 0, 0, 0, 0, 0, 0, 0, 0, 0, 0, 0, 0, 0, 0]) := rfl
  have h2 := C2_x0_zero.2.2.2 [0x13] [⟨"ADDI", 0, 0, 0, 0, none⟩] ["nop"] 5
    [⟨0, 0, 0x13, 0, 0, "nop"⟩]
    [0, 0, 0, 0, 0, 0, 0, 0, 0, 0, 0, 0, 0, 0, 0, 0,
     0, 0, 0, 0, 0, 0, 0, 0, 0, 0, 0, 0, 0, 0, 0, 0] h
  exact ⟨h, h2.1, h2.2⟩

theorem loop_none_iff : ∀ (g : List GoldRec) (s : List SimRec) (k : Nat),
    diff_first_loop g s k = none ↔
      ∀ (j : Nat) (a : GoldRec) (b : SimRec), g[j]? = some a → s[j]? = some b → keyG a = keyS b := by
  intro g
  induction g with
  | nil =>
    intro s k
    constructor
    · intro _ j a b ha _
      simp at ha
    · intro _
      cases s <;> rfl
  | cons a gs ih =>
    intro s k
    cases s with
    | nil =>
      constructor
      · intro _ j x y _ hy
        simp at hy
      · intro _
        rfl
    | cons b ss =>
      rw [diff_first_loop]
      by_cases hk : keyG a ≠ keyS b
      · rw [if_pos hk]
        constructor
        · intro h
          exact Option.noConfusion h
        · intro hall
          exact absurd (hall 0 a b (by simp) (by simp)) hk
      · rw [if_neg hk]
        push_neg at hk
        rw [ih ss (k + 1)]
        constructor
        · intro hall j x y hx hy
          cases j with
          | zero =>
            simp only [List.getElem?_cons_zero, Option.some.injEq] at hx hy
            subst hx
            subst hy
            exact hk
          | succ j => exact hall j x y (by simpa using hx) (by simpa using hy)
        · intro hall j x y hx hy
          exact hall (j + 1) x y (by simpa using hx) (by simpa using hy)

theorem loop_some_spec : ∀ (g : List GoldRec) (s : List SimRec) (k i : Nat),
    diff_first_loop g s k = some i →
    ∃ j, i = k + j ∧ ∃ (a : GoldRec) (b : SimRec), g[j]? = some a ∧ s[j]? = some b ∧ keyG a ≠ keyS b ∧
      ∀ (j' : Nat) (a' : GoldRec) (b' : SimRec), j' < j → g[j']? = some a' → s[j']? = some b' → keyG a' = keyS b' := by
  intro g
  induction g with
  | nil =>
    intro s k i h
    cases s <;> exact Option.noConfusion h
  | cons a gs ih =>
    intro s k i h
    cases s with
    | nil => exact Option.noConfusion h
    | cons b ss =>
      rw [diff_first_loop] at h
      by_cases hk : keyG a ≠ keyS b
      · rw [if_pos hk] at h
        have hik := Option.some.inj h
        refine ⟨0, by omega, a, b, by simp, by simp, hk, ?_⟩
        intro j' a' b' hj' _ _
        exact absurd hj' (Nat.not_lt_zero j')
      · rw [if_neg hk] at h
        push_neg at hk
        obtain ⟨j, hij, x, y, hx, hy, hne, hpre⟩ := ih ss (k + 1) i h
        refine ⟨j + 1, by omega, x, y, by simpa using hx, by simpa using hy, hne, ?_⟩
        intro j' a' b' hj' ha' hb'
        cases j' with
        | zero =>
          simp only [List.getElem?_cons_zero, Option.some.injEq] at ha' hb'
          subst ha'
          subst hb'
          exact hk
        | succ j'' => exact hpre j'' a' b' (by omega) (by simpa using ha') (by simpa using hb')

theorem loop_congr : ∀ (g g' : List GoldRec) (s s' : List SimRec) (k : Nat),
    g.map keyG = g'.map keyG → s.map keyS = s'.map keyS →
    diff_first_loop g s k = diff_first_loop g' s' k := by
  intro g
  induction g with
  | nil =>
    intro g' s s' k hg _
    have hg' : g' = [] := by
      cases g' with
      | nil => rfl
      | cons _ _ => simp at hg
    subst hg'
    cases s <;> cases s' <;> rfl
  | cons a gs ih =>
    intro g' s s' k hg hs
    cases g' with
    | nil => simp at hg
    | cons a' gs' =>
      simp only [List.map_cons, List.cons.injEq] at hg
      obtain ⟨hka, hmg⟩ := hg
      cases s with
      | nil =>
        have hs' : s' = [] := by
          cases s' with
          | nil => rfl
          | cons _ _ => simp at hs
        subst hs'
        rfl
      | cons b ss =>
        cases s' with
        | nil => simp at hs
        | cons b' ss' =>
          simp only [List.map_cons, List.cons.injEq] at hs
          obtain ⟨hkb, hms⟩ := hs
          rw [diff_first_loop, diff_first_loop, hka, hkb]
          by_cases hk : keyG a' ≠ keyS b'
          · rw [if_pos hk, if_pos hk]
          · rw [if_neg hk, if_neg hk]
            exact ih gs' ss ss' (k + 1) hmg hms

theorem keys_pointwise (g : List GoldRec) (s : List SimRec)
    (hmap : g.map keyG = s.map keyS) :
    ∀ (j : Nat) (a : GoldRec) (b : SimRec), g[j]? = some a → s[j]? = some b → keyG a = keyS b := by
  intro j a b ha hb
  have h := congrArg (fun l => l[j]?) hmap
  simp only [List.getElem?_map, ha, hb, Option.map_some] at h
  exact Option.some.inj h

theorem keys_map_eq (g : List GoldRec) (s : List SimRec)
    (hlen : g.length = s.length)
    (hpt : ∀ (j : Nat) (a : GoldRec) (b : SimRec), g[j]? = some a → s[j]? = some b → keyG a = keyS b) :
    g.map keyG = s.map keyS := by
  apply List.ext_getElem?
  intro i
  rw [List.getElem?_map, List.getElem?_map]
  by_cases hi : i < g.length
  · obtain ⟨a, ha⟩ : ∃ a, g[i]? = some a := ⟨g[i], List.getElem?_eq_getElem hi⟩
    obtain ⟨b, hb⟩ : ∃ b, s[i]? = some b := ⟨s.get ⟨i, by omega⟩, List.getElem?_eq_getElem (by omega)⟩
    rw [ha, hb]
    show some (keyG a) = some (keyS b)
    exact congrArg some (hpt i a b ha hb)
  · rw [List.getElem?_eq_none (by omega), List.getElem?_eq_none (by omega)]
    rfl

/-- C4: the TraceComparator reports a full match (`diff_first = none`) iff the
two sequences have equal length and identical `(pc, rd, data)` keys at every
index; on `some i` the keys agree strictly before `i` and either the keys
differ at `i` or `i` is the common-prefix length `min` of two
different-length sequences; a strict key-wise prefix (hardware shorter,
the "ended early" case) yields exactly `some sim.length`; and the result
depends only on the key sequences, so the `cycle` and raw-instruction fields
never influence it. -/
theorem C4_trace_diff :
    (∀ (gold : List GoldRec) (sim : List SimRec),
      diff_first gold sim = none ↔
        gold.length = sim.length ∧ gold.map keyG = sim.map keyS) ∧
    (∀ (gold : List GoldRec) (sim : List SimRec) (i : Nat),
      diff_first gold sim = some i →
        (∀ (j : Nat) (a : GoldRec) (b : SimRec), j < i → gold[j]? = some a → sim[j]? = some b → keyG a = keyS b) ∧
        ((∃ (a : GoldRec) (b : SimRec), gold[i]? = some a ∧ sim[i]? = some b ∧ keyG a ≠ keyS b) ∨
          (i = min gold.length sim.length ∧ gold.length ≠ sim.length))) ∧
    (∀ (gold : List GoldRec) (sim : List SimRec),
      sim.map keyS = (gold.map keyG).take sim.length → sim.length < gold.length →
        diff_first gold sim = some sim.length ∧
        sim.length = min gold.length sim.length) ∧
    (∀ (gold gold' : List GoldRec) (sim sim' : List SimRec),
      gold.map keyG = gold'.map keyG → sim.map keyS = sim'.map keyS →
      diff_first gold sim = diff_first gold' sim') := by
  refine ⟨?_, ?_, ?_, ?_⟩
  · intro gold sim
    rw [diff_first]
    cases hl : diff_first_loop gold sim 0 with
    | some i =>
      constructor
      · intro h
        exact Option.noConfusion h
      · rintro ⟨hlen, hmap⟩
        rw [(loop_none_iff gold sim 0).mpr (keys_pointwise gold sim hmap)] at hl
        exact Option.noConfusion hl
    | none =>
      by_cases hlen : sim.length ≠ gold.length
      · rw [if_pos hlen]
        constructor
        · intro h
          exact Option.noConfusion h
        · rintro ⟨h, _⟩
          exact absurd h.symm hlen
      · rw [if_neg hlen]
        push_neg at hlen
        simp only [true_iff]
        exact ⟨hlen.symm, keys_map_eq gold sim hlen.symm ((loop_none_iff gold sim 0).mp hl)⟩
  · intro gold sim i h
    rw [diff_first] at h
    cases hl : diff_first_loop gold sim 0 with
    | some i' =>
      rw [hl] at h
      have hii := Option.some.inj h
      subst hii
      obtain ⟨j, hij, a, b, ha, hb, hne, hpre⟩ := loop_some_spec gold sim 0 i' hl
      have hj : i' = j := by omega
      subst hj
      exact ⟨fun j' a' b' hj' => hpre j' a' b' hj', Or.inl ⟨a, b, ha, hb, hne⟩⟩
    | none =>
      rw [hl] at h
      by_cases hlen : sim.length ≠ gold.length
      · rw [if_pos hlen] at h
        have hi := Option.some.inj h
        subst hi
        refine ⟨?_, Or.inr ⟨rfl, fun he => hlen he.symm⟩⟩
        intro j a b _ ha hb
        exact (loop_none_iff gold sim 0).mp hl j a b ha hb
      · rw [if_neg hlen] at h
        exact Option.noConfusion h
  · intro gold sim hpre hlen
    have hpt : ∀ (j : Nat) (a : GoldRec) (b : SimRec), gold[j]? = some a → sim[j]? = some b → keyG a = keyS b := by
      intro j a b ha hb
      have hj : j < sim.length := by
        by_contra hc
        rw [List.getElem?_eq_none (by omega)] at hb
        exact Option.noConfusion hb
      have h := congrArg (fun l => l[j]?) hpre
      simp only [List.getElem?_map] at h
      rw [List.getElem?_take, if_pos hj, List.getElem?_map, ha, hb] at h
      exact (Option.some.inj h).symm
    have hloop := (loop_none_iff gold sim 0).mpr hpt
    rw [diff_first, hloop, if_pos (by omega)]
    have hmin : min gold.length sim.length = sim.length := by omega
    rw [hmin]
    exact ⟨rfl, by omega⟩
  · intro gold gold' sim sim' hg hs
    have hglen : gold.length = gold'.length := by
      have := congrArg List.length hg
      simpa using this
    have hslen : sim.length = sim'.length := by
      have := congrArg List.length hs
      simpa using this
    rw [diff_first, diff_first, loop_congr gold gold' sim sim' 0 hg hs, hslen, hglen]

/-- Witness for C4: a hardware trace that is a strict key-wise prefix of a
two-entry golden trace diverges at index 1, the "ended early" point, even
though the surviving entry differs in `cycle` and raw instruction word. -/
theorem C4_trace_diff_witness :
    ([⟨(some 9 : Option Nat), 0, 0, 7⟩] : List SimRec).map keyS =
      (([⟨5, 0, 0x13, 0, 7, "a"⟩, ⟨6, 4, 0x93, 1, 8, "b"⟩] : List GoldRec).map keyG).take 1 ∧
    (1 : Nat) < 2 ∧
    diff_first [⟨5, 0, 0x13, 0, 7, "a"⟩, ⟨6, 4, 0x93, 1, 8, "b"⟩]
        [⟨(some 9 : Option Nat), 0, 0, 7⟩] = some 1 := by
  have h := C4_trace_diff.2.2.1 [⟨5, 0, 0x13, 0, 7, "a"⟩, ⟨6, 4, 0x93, 1, 8, "b"⟩]
    [⟨(some 9 : Option Nat), 0, 0, 7⟩] (by decide) (by decide)
  exact ⟨by decide, by decide, h.1⟩

theorem hex_char_ne (c : Char) (h : is_hex_digit c = true) (d : Char)
    (hd : is_hex_digit d = false) : c ≠ d := by
  intro he
  rw [he, hd] at h
  exact Bool.noConfusion h

theorem hex_not_space (c : Char) (h : is_hex_digit c = true) : py_isspace c = false := by
  simp only [py_isspace, Bool.or_eq_false_iff, decide_eq_false_iff_not]
  refine ⟨⟨⟨⟨⟨?_, ?_⟩, ?_⟩, ?_⟩, ?_⟩, ?_⟩ <;> exact hex_char_ne c h _ (by decide)

theorem dropWhile_eq_self_of (p : Char → Bool) (l : List Char)
    (h : ∀ c ∈ l, p c = false) : l.dropWhile p = l := by
  cases l with
  | nil => rfl
  | cons a t =>
    rw [List.dropWhile_cons, h a (List.mem_cons_self a t)]
    simp

theorem py_strip_eq_self (s : List Char) (h : ∀ c ∈ s, py_isspace c = false) :
    py_strip s = s := by
  rw [py_strip, dropWhile_eq_self_of _ _ h, dropWhile_eq_self_of, List.reverse_reverse]
  intro c hc
  exact h c (List.mem_reverse.mp hc)

theorem takeWhile_eq_self_of (p : Char → Bool) (l : List Char)
    (h : ∀ c ∈ l, p c = true) : l.takeWhile p = l := by
  induction l with
  | nil => rfl
  | cons a t ih =>
    rw [List.takeWhile_cons, h a (List.mem_cons_self a t), if_pos rfl]
    rw [ih fun c hc => h c (List.mem_cons_of_mem a hc)]

theorem takeWhile_append_all (p : Char → Bool) (s t : List Char)
    (h : ∀ c ∈ s, p c = true) : (s ++ t).takeWhile p = s ++ t.takeWhile p := by
  induction s with
  | nil => rfl
  | cons a s' ih =>
    rw [List.cons_append, List.takeWhile_cons, h a (List.mem_cons_self a s'), if_pos rfl,
      ih fun c hc => h c (List.mem_cons_of_mem a hc), List.cons_append]

theorem before_ss_eq_self (l : List Char) (h : ∀ c ∈ l, (c = '/') = False) :
    before_slashslash l = l := by
  induction l with
  | nil => rfl
  | cons a t ih =>
    rw [before_slashslash, if_neg, ih fun c hc => h c (List.mem_cons_of_mem a hc)]
    intro ⟨ha, _⟩
    exact (h a (List.mem_cons_self a t)).mp ha

theorem py_strip_append_space (s : List Char) (hne : s ≠ [])
    (h : ∀ c ∈ s, py_isspace c = false) : py_strip (s ++ [' ']) = s := by
  obtain ⟨a, t, rfl⟩ : ∃ a t, s = a :: t := by
    cases s with
    | nil => exact absurd rfl hne
    | cons a t => exact ⟨a, t, rfl⟩
  rw [py_strip, List.cons_append, List.dropWhile_cons,
    h a (List.mem_cons_self a t)]
  simp only [Bool.false_eq_true, if_false]
  rw [show a :: (t ++ [' ']) = (a :: t) ++ [' '] from rfl, List.reverse_append]
  simp only [List.reverse_cons, List.reverse_nil, List.nil_append, List.singleton_append]
  rw [List.dropWhile_cons]
  simp only [show py_isspace ' ' = true from rfl, if_true]
  have hmem : ∀ c ∈ t.reverse ++ [a], py_isspace c = false := by
    intro c hc
    rcases List.mem_append.mp hc with hc | hc
    · exact h c (List.mem_cons_of_mem a (List.mem_reverse.mp hc))
    · rw [List.mem_singleton.mp hc]
      exact h a (List.mem_cons_self a t)
  rw [dropWhile_eq_self_of _ _ hmem]
  simp

theorem py_strip_eq_self_ends (l : List Char)
    (h1 : ∀ c, l.head? = some c → py_isspace c = false)
    (h2 : ∀ c, l.getLast? = some c → py_isspace c = false) : py_strip l = l := by
  cases l with
  | nil => rfl
  | cons a t =>
    rw [py_strip, List.dropWhile_cons, h1 a rfl]
    simp only [Bool.false_eq_true, if_false]
    cases hr : (a :: t).reverse with
    | nil => simp at hr
    | cons b rt =>
      have hb : py_isspace b = false := by
        apply h2
        rw [← List.head?_reverse, hr]
        rfl
      rw [List.dropWhile_cons, hb]
      simp only [Bool.false_eq_true, if_false]
      rw [← hr, List.reverse_reverse]

theorem int16pre_two (c0 c1 : Char) (rest : List Char) :
    int16pre (c0 :: c1 :: rest) =
      if c0 = '0' ∧ (c1 = 'x' ∨ c1 = 'X') then int16digits rest
      else int16digits (c0 :: c1 :: rest) := rfl

theorem int16digits_none (l : List Char) (h : l.all is_hex_digit = false) :
    int16digits l = none := by
  rw [int16digits, if_neg]
  rintro ⟨_, hall⟩
  rw [h] at hall
  exact Bool.noConfusion hall

theorem int16digits_some (l : List Char) (hne : l ≠ []) (h : l.all is_hex_digit = true) :
    int16digits l = some (hex_val l) := by
  rw [int16digits, if_pos ⟨hne, h⟩]

theorem int16_cons_plain (a : Char) (rest : List Char) (h1 : ¬a = '-') (h2 : ¬a = '+') :
    int16? (a :: rest) = (int16pre (a :: rest)).map (fun n => ((n : Nat) : Int)) := by
  have he : int16? (a :: rest) =
      if a = '-' then (int16pre rest).map (fun n => -((n : Nat) : Int))
      else if a = '+' then (int16pre rest).map (fun n => ((n : Nat) : Int))
      else (int16pre (a :: rest)).map (fun n => ((n : Nat) : Int)) := rfl
  rw [he, if_neg h1, if_neg h2]

theorem int16_hex (s : List Char) (hne : s ≠ []) (hs : s.all is_hex_digit = true) :
    int16? s = some ((hex_val s : Nat) : Int) := by
  have hall := List.all_eq_true.mp hs
  obtain ⟨a, t, rfl⟩ : ∃ a t, s = a :: t := by
    cases s with
    | nil => exact absurd rfl hne
    | cons a t => exact ⟨a, t, rfl⟩
  have ha := hall a (List.mem_cons_self a t)
  rw [int16_cons_plain a t (hex_char_ne a ha '-' (by decide)) (hex_char_ne a ha '+' (by decide))]
  cases t with
  | nil =>
    rw [show int16pre [a] = int16digits [a] from rfl, int16digits_some _ hne hs]
    rfl
  | cons b t' =>
    have hb := hall b (List.mem_cons_of_mem a (List.mem_cons_self b t'))
    rw [int16pre_two, if_neg, int16digits_some _ hne hs]
    · rfl
    · rintro ⟨_, hx | hx⟩
      · exact hex_char_ne b hb 'x' (by decide) hx
      · exact hex_char_ne b hb 'X' (by decide) hx

/-- C8 (amended): for a line of pure hex digits both loaders accept it with
the word value mod `2^32`; but the two loaders diverge from the claim:
`parse_hex_words` rejects an `0x`-prefixed word that `load_hex_words`
accepts, `load_hex_words` aborts on a `#` comment that `parse_hex_words`
strips, comment-only lines are skipped only by `parse_hex_words`, a
non-hex line aborts both, and at file level a skipped line contributes
nothing while an offending line aborts the whole run. -/
theorem C8_loaders :
    (∀ s : List Char, s ≠ [] → s.all is_hex_digit = true →
      parse_hex_line s = .ok (some (hex_val s % 2 ^ 32)) ∧
      load_hex_line s = .ok (some (hex_val s % 2 ^ 32))) ∧
    (∀ s : List Char, s ≠ [] → s.all is_hex_digit = true →
      (parse_hex_line ('0' :: 'x' :: s)).isOk = false ∧
      load_hex_line ('0' :: 'x' :: s) = .ok (some (hex_val s % 2 ^ 32))) ∧
    (∀ s : List Char, s ≠ [] → s.all is_hex_digit = true →
      parse_hex_line (s ++ [' ', '#', ' ', 'c']) = .ok (some (hex_val s % 2 ^ 32)) ∧
      (load_hex_line (s ++ [' ', '#', ' ', 'c'])).isOk = false) ∧
    (parse_hex_line ['#', ' ', 'x'] = .ok none ∧
      (load_hex_line ['#', ' ', 'x']).isOk = false) ∧
    ((parse_hex_line ['z', 'z']).isOk = false ∧ (load_hex_line ['z', 'z']).isOk = false) ∧
    (∀ (line : List Char) (rest : List (List Char)),
      (parse_hex_line line = .ok none → parse_hex_words (line :: rest) = parse_hex_words rest) ∧
      (load_hex_line line = .ok none → load_hex_words (line :: rest) = load_hex_words rest) ∧
      (∀ e, parse_hex_line line = .error e → parse_hex_words (line :: rest) = .error e) ∧
      (∀ e, load_hex_line line = .error e → load_hex_words (line :: rest) = .error e)) := by
  refine ⟨?_, ?_, ?_, ⟨rfl, by decide⟩, ⟨by decide, by decide⟩, ?_⟩
  · intro s hne hs
    have hall := List.all_eq_true.mp hs
    have hsp : ∀ c ∈ s, py_isspace c = false := fun c hc => hex_not_space c (hall c hc)
    have hpound : ∀ c ∈ s, (fun c => decide ¬(c = '#')) c = true := fun c hc => by
      simp only [decide_eq_true_eq]
      exact hex_char_ne c (hall c hc) '#' (by decide)
    have hslash : ∀ c ∈ s, (c = '/') = False := fun c hc =>
      eq_false (hex_char_ne c (hall c hc) '/' (by decide))
    constructor
    · simp only [parse_hex_line]
      rw [py_strip_eq_self s hsp, if_neg hne, takeWhile_eq_self_of _ s hpound,
        py_strip_eq_self s hsp, before_ss_eq_self s hslash, py_strip_eq_self s hsp,
        if_neg hne, if_pos hs]
    · simp only [load_hex_line]
      rw [py_strip_eq_self s hsp, if_neg hne, int16_hex s hne hs]
      show Except.ok (some (u32 ((hex_val s : Nat) : Int))) = _
      rw [u32_cast]
  · intro s hne hs
    have hall := List.all_eq_true.mp hs
    have hne2 : ('0' :: 'x' :: s) ≠ ([] : List Char) := by simp
    have hall2 : ∀ c ∈ ('0' :: 'x' :: s), c = '0' ∨ c = 'x' ∨ is_hex_digit c = true := by
      intro c hc
      rcases List.mem_cons.mp hc with rfl | hc
      · exact Or.inl rfl
      rcases List.mem_cons.mp hc with rfl | hc
      · exact Or.inr (Or.inl rfl)
      · exact Or.inr (Or.inr (hall c hc))
    have hsp : ∀ c ∈ ('0' :: 'x' :: s), py_isspace c = false := by
      intro c hc
      rcases hall2 c hc with rfl | rfl | h
      · decide
      · decide
      · exact hex_not_space c h
    have hpound : ∀ c ∈ ('0' :: 'x' :: s), (fun c => decide ¬(c = '#')) c = true := by
      intro c hc
      simp only [decide_eq_true_eq]
      rcases hall2 c hc with rfl | rfl | h
      · decide
      · decide
      · exact hex_char_ne c h '#' (by decide)
    have hslash : ∀ c ∈ ('0' :: 'x' :: s), (c = '/') = False := by
      intro c hc
      rcases hall2 c hc with rfl | rfl | h
      · exact eq_false (by decide)
      · exact eq_false (by decide)
      · exact eq_false (hex_char_ne c h '/' (by decide))
    have hnothex : ('0' :: 'x' :: s).all is_hex_digit = false := by
      simp only [List.all_cons]
      rw [show is_hex_digit 'x' = false from by decide]
      simp
    constructor
    · simp only [parse_hex_line]
      rw [py_strip_eq_self _ hsp, if_neg hne2, takeWhile_eq_self_of _ _ hpound,
        py_strip_eq_self _ hsp, before_ss_eq_self _ hslash, py_strip_eq_self _ hsp,
        if_neg hne2, if_neg (by rw [hnothex]; exact Bool.false_ne_true)]
      rfl
    · simp only [load_hex_line]
      rw [py_strip_eq_self _ hsp, if_neg hne2,
        int16_cons_plain '0' ('x' :: s) (by decide) (by decide),
        int16pre_two, if_pos ⟨rfl, Or.inl rfl⟩, int16digits_some s hne hs]
      show Except.ok (some (u32 ((hex_val s : Nat) : Int))) = _
      rw [u32_cast]
  · intro s hne hs
    have hall := List.all_eq_true.mp hs
    obtain ⟨a, t, rfl⟩ : ∃ a t, s = a :: t := by
      cases s with
      | nil => exact absurd rfl hne
      | cons a t => exact ⟨a, t, rfl⟩
    have ha := hall a (List.mem_cons_self a t)
    have hsp : ∀ c ∈ (a :: t), py_isspace c = false := fun c hc => hex_not_space c (hall c hc)
    have hline : (a :: t) ++ [' ', '#', ' ', 'c'] = ((a :: t) ++ [' ', '#', ' ']) ++ ['c'] := by
      simp
    constructor
    · simp only [parse_hex_line]
      have hstrip1 : py_strip ((a :: t) ++ [' ', '#', ' ', 'c']) =
          (a :: t) ++ [' ', '#', ' ', 'c'] := by
        apply py_strip_eq_self_ends
        · intro c hc
          simp only [List.cons_append, List.head?_cons, Option.some.injEq] at hc
          rw [← hc]
          exact hsp a (List.mem_cons_self a t)
        · intro c hc
          rw [hline, List.getLast?_concat] at hc
          rw [← Option.some.inj hc]
          decide
      rw [hstrip1, if_neg (by simp),
        takeWhile_append_all _ (a :: t) _ (fun c hc => by
          simp only [decide_eq_true_eq]
          exact hex_char_ne c (hall c hc) '#' (by decide)),
        show List.takeWhile (fun c => decide ¬(c = '#')) [' ', '#', ' ', 'c'] = [' '] from rfl,
        py_strip_append_space (a :: t) (by simp) hsp,
        before_ss_eq_self _ (fun c hc => eq_false (hex_char_ne c (hall c hc) '/' (by decide))),
        py_strip_eq_self _ hsp, if_neg (by simp), if_pos hs]
    · simp only [load_hex_line]
      have hstrip1 : py_strip ((a :: t) ++ [' ', '#', ' ', 'c']) =
          (a :: t) ++ [' ', '#', ' ', 'c'] := by
        apply py_strip_eq_self_ends
        · intro c hc
          simp only [List.cons_append, List.head?_cons, Option.some.injEq] at hc
          rw [← hc]
          exact hsp a (List.mem_cons_self a t)
        · intro c hc
          rw [hline, List.getLast?_concat] at hc
          rw [← Option.some.inj hc]
          decide
      rw [hstrip1, if_neg (by simp)]
      have hnh : ∀ l2 : List Char, '#' ∈ l2 → l2.all is_hex_digit = false := by
        intro l2 hmem
        rw [List.all_eq_false]
        exact ⟨'#', hmem, by decide⟩
      have hcase : int16? ((a :: t) ++ [' ', '#', ' ', 'c']) = none := by
        rw [show (a :: t) ++ [' ', '#', ' ', 'c'] = a :: (t ++ [' ', '#', ' ', 'c']) from rfl,
          int16_cons_plain a _ (hex_char_ne a ha '-' (by decide))
            (hex_char_ne a ha '+' (by decide))]
        cases t with
        | nil =>
          rw [show ([] : List Char) ++ [' ', '#', ' ', 'c'] = [' ', '#', ' ', 'c'] from rfl,
            int16pre_two, if_neg (by rintro ⟨_, hx | hx⟩ <;> exact absurd hx (by decide)),
            int16digits_none _ (hnh _ (by simp))]
          rfl
        | cons b t' =>
          have hb := hall b (List.mem_cons_of_mem a (List.mem_cons_self b t'))
          rw [show (b :: t') ++ [' ', '#', ' ', 'c'] = b :: (t' ++ [' ', '#', ' ', 'c']) from rfl,
            int16pre_two, if_neg, int16digits_none _ (hnh _ (by simp))]
          · rfl
          · rintro ⟨_, hx | hx⟩
            · exact hex_char_ne b hb 'x' (by decide) hx
            · exact hex_char_ne b hb 'X' (by decide) hx
      rw [hcase]
      rfl
  · intro line rest
    refine ⟨?_, ?_, ?_, ?_⟩
    · intro h
      rw [parse_hex_words, h]
    · intro h
      rw [load_hex_words, h]
    · intro e h
      rw [parse_hex_words, h]
    · intro e h
      rw [load_hex_words, h]

/-- Counterexample for C8 as stated: `parse_hex_words` rejects the
`0x`-prefixed word `0x1f` that the claim says is accepted, and
`load_hex_words` aborts on the commented line `1f # c` that the claim says
is comment-stripped; each loader accepts the line the other rejects. -/
theorem C8_loaders_cex :
    (parse_hex_line ['0', 'x', '1', 'f']).isOk = false ∧
    load_hex_line ['0', 'x', '1', 'f'] = .ok (some 0x1f) ∧
    parse_hex_line ['1', 'f', ' ', '#', ' ', 'c'] = .ok (some 0x1f) ∧
    (load_hex_line ['1', 'f', ' ', '#', ' ', 'c']).isOk = false :=
  ⟨by decide, rfl, rfl, by decide⟩

/-- Witness for C8 (amended) on the plain hex line `1f`. -/
theorem C8_loaders_witness :
    (['1', 'f'] : List Char) ≠ [] ∧ (['1', 'f'] : List Char).all is_hex_digit = true ∧
    parse_hex_line ['1', 'f'] = .ok (some (hex_val ['1', 'f'] % 2 ^ 32)) ∧
    load_hex_line ['1', 'f'] = .ok (some (hex_val ['1', 'f'] % 2 ^ 32)) := by
  have h := C8_loaders.1 ['1', 'f'] (by decide) (by decide)
  exact ⟨by decide, by decide, h.1, h.2⟩

theorem check_none_run : ∀ (post : List (List Char)) (t r : Nat),
    (∀ l ∈ post, redirectMatch? (py_strip l) = none) →
    check_redirect post none t r = .ok r (t + (pc_values post).length) := by
  intro post
  induction post with
  | nil =>
    intro t r _
    rfl
  | cons l rest ih =>
    intro t r h
    rw [check_redirect, h l (List.mem_cons_self l rest)]
    simp only []
    cases hpc : pcSearch none (py_strip l) with
    | none =>
      rw [ih t r fun x hx => h x (List.mem_cons_of_mem l hx)]
      simp only [pc_values, List.filterMap_cons, hpc]
    | some pc =>
      rw [ih (t + 1) r fun x hx => h x (List.mem_cons_of_mem l hx)]
      have hvs : pc_values (l :: rest) = pc :: pc_values rest := by
        simp only [pc_values, List.filterMap_cons, hpc]
      rw [hvs, List.length_cons]
      have heq : t + ((pc_values rest).length + 1) = t + 1 + (pc_values rest).length := by omega
      rw [heq]

theorem check_pre_run : ∀ (pre rest : List (List Char)) (t r : Nat),
    (∀ l ∈ pre, redirectMatch? (py_strip l) = none) →
    check_redirect (pre ++ rest) none t r =
      check_redirect rest none (t + (pc_values pre).length) r := by
  intro pre
  induction pre with
  | nil =>
    intro rest t r _
    simp [pc_values]
  | cons l pre' ih =>
    intro rest t r h
    rw [List.cons_append, check_redirect, h l (List.mem_cons_self l pre')]
    simp only []
    cases hpc : pcSearch none (py_strip l) with
    | none =>
      rw [ih rest t r fun x hx => h x (List.mem_cons_of_mem l hx)]
      simp only [pc_values, List.filterMap_cons, hpc]
    | some pc =>
      rw [ih rest (t + 1) r fun x hx => h x (List.mem_cons_of_mem l hx)]
      have hvs : pc_values (l :: pre') = pc :: pc_values pre' := by
        simp only [pc_values, List.filterMap_cons, hpc]
      rw [hvs, List.length_cons]
      have heq : t + ((pc_values pre').length + 1) = t + 1 + (pc_values pre').length := by omega
      rw [heq]

theorem check_post_run : ∀ (post : List (List Char)) (X : Nat) (t r : Nat),
    (∀ l ∈ post, redirectMatch? (py_strip l) = none) →
    ∀ b : Int, 0 ≤ b →
    ((∃ i : Nat, (i : Int) ≤ b ∧ (pc_values post)[i]? = some X) →
      ∃ t', check_redirect post (some (X, b)) t r = .ok r t') ∧
    ((∀ i : Nat, (i : Int) ≤ b → (pc_values post)[i]? ≠ some X) →
      (b + 1 ≤ ((pc_values post).length : Int) →
        check_redirect post (some (X, b)) t r = .failBudget X) ∧
      (((pc_values post).length : Int) < b + 1 →
        check_redirect post (some (X, b)) t r = .failPending X)) := by
  intro post
  induction post with
  | nil =>
    intro X t r _ b hb
    constructor
    · rintro ⟨i, _, hi⟩
      simp [pc_values] at hi
    · intro _
      constructor
      · intro hlen
        simp only [pc_values, List.filterMap_nil, List.length_nil] at hlen
        omega
      · intro _
        rfl
  | cons l rest ih =>
    intro X t r h b hb
    have hr := h l (List.mem_cons_self l rest)
    have hrest : ∀ x ∈ rest, redirectMatch? (py_strip x) = none :=
      fun x hx => h x (List.mem_cons_of_mem l hx)
    cases hpc : pcSearch none (py_strip l) with
    | none =>
      have hvs : pc_values (l :: rest) = pc_values rest := by
        simp only [pc_values, List.filterMap_cons, hpc]
      have hstep : check_redirect (l :: rest) (some (X, b)) t r =
          check_redirect rest (some (X, b)) t r := by
        rw [check_redirect, hr]
        simp only []
        rw [hpc]
      rw [hstep, hvs]
      exact ih X t r hrest b hb
    | some pc =>
      have hvs : pc_values (l :: rest) = pc :: pc_values rest := by
        simp only [pc_values, List.filterMap_cons, hpc]
      rw [hvs]
      by_cases hpcx : pc = X
      · subst hpcx
        have hstep : check_redirect (l :: rest) (some (pc, b)) t r =
            check_redirect rest none (t + 1) r := by
          rw [check_redirect, hr]
          simp only []
          rw [hpc]
          simp
        constructor
        · intro _
          rw [hstep, check_none_run rest (t + 1) r hrest]
          exact ⟨_, rfl⟩
        · intro hall
          have h0 := hall 0 (by omega)
          simp at h0
      · have hstep0 : check_redirect (l :: rest) (some (X, b)) t r =
            if b - 1 < 0 then .failBudget X
            else check_redirect rest (some (X, b - 1)) (t + 1) r := by
          rw [check_redirect, hr]
          simp only []
          rw [hpc]
          simp only [if_neg hpcx]
        by_cases hb0 : b - 1 < 0
        · rw [hstep0, if_pos hb0]
          constructor
          · rintro ⟨i, hib, hi⟩
            have hi0 : i = 0 := by omega
            subst hi0
            simp only [List.getElem?_cons_zero, Option.some.injEq] at hi
            exact absurd hi hpcx
          · intro _
            constructor
            · intro _
              rfl
            · intro hlen
              simp only [List.length_cons] at hlen
              omega
        · rw [hstep0, if_neg hb0]
          obtain ⟨hsucc, hfail⟩ := ih X (t + 1) r hrest (b - 1) (by omega)
          constructor
          · rintro ⟨i, hib, hi⟩
            cases i with
            | zero =>
              simp only [List.getElem?_cons_zero, Option.some.injEq] at hi
              exact absurd hi hpcx
            | succ i' =>
              refine hsucc ⟨i', by push_cast at hib ⊢; omega, by simpa using hi⟩
          · intro hall
            have hall' : ∀ i : Nat, (i : Int) ≤ b - 1 → (pc_values rest)[i]? ≠ some X := by
              intro i hib
              have := hall (i + 1) (by push_cast at hib ⊢; omega)
              simpa using this
            obtain ⟨hf1, hf2⟩ := hfail hall'
            constructor
            · intro hlen
              simp only [List.length_cons] at hlen
              push_cast at hlen
              exact hf1 (by omega)
            · intro hlen
              simp only [List.length_cons] at hlen
              push_cast at hlen
              exact hf2 (by omega)

/-- C9: for a log with exactly one `REDIRECT to=X` (no redirect in `pre` or
`post`): if a PC-carrying line with value `X` appears among the first
`MAX_LAT + 1` decoded-PC lines after the redirect (budget never exhausted
before satisfaction), the validator succeeds reporting exactly 1 redirect
checked; if no such line appears within the budget it fails citing the
pending target `X` — `failBudget X` when a fourth non-matching PC line
arrives, `failPending X` when the log ends first.  The last three conjuncts
are the budget bookkeeping: a line with no PC leaves the pending state
untouched, a non-matching PC line only decrements the budget by one, and a
matching PC line clears the pending state. -/
theorem C9_redirect :
    (∀ (pre post : List (List Char)) (rl : List Char) (X : Nat),
      (∀ l ∈ pre, redirectMatch? (py_strip l) = none) →
      (∀ l ∈ post, redirectMatch? (py_strip l) = none) →
      redirectMatch? (py_strip rl) = some X →
      ((∃ i : Nat, (i : Int) ≤ MAX_LAT ∧ (pc_values post)[i]? = some X) →
        ∃ t', check_redirect (pre ++ rl :: post) none 0 0 = .ok 1 t') ∧
      ((∀ i : Nat, (i : Int) ≤ MAX_LAT → (pc_values post)[i]? ≠ some X) →
        (MAX_LAT + 1 ≤ ((pc_values post).length : Int) →
          check_redirect (pre ++ rl :: post) none 0 0 = .failBudget X) ∧
        (((pc_values post).length : Int) < MAX_LAT + 1 →
          check_redirect (pre ++ rl :: post) none 0 0 = .failPending X))) ∧
    (∀ (l : List Char) (rest : List (List Char)) (X : Nat) (b : Int) (t r : Nat),
      redirectMatch? (py_strip l) = none → pcSearch none (py_strip l) = none →
      check_redirect (l :: rest) (some (X, b)) t r = check_redirect rest (some (X, b)) t r) ∧
    (∀ (l : List Char) (rest : List (List Char)) (X pc : Nat) (b : Int) (t r : Nat),
      redirectMatch? (py_strip l) = none → pcSearch none (py_strip l) = some pc →
      pc ≠ X → ¬(b - 1 < 0) →
      check_redirect (l :: rest) (some (X, b)) t r =
        check_redirect rest (some (X, b - 1)) (t + 1) r) ∧
    (∀ (l : List Char) (rest : List (List Char)) (X : Nat) (b : Int) (t r : Nat),
      redirectMatch? (py_strip l) = none → pcSearch none (py_strip l) = some X →
      check_redirect (l :: rest) (some (X, b)) t r = check_redirect rest none (t + 1) r) := by
  refine ⟨?_, ?_, ?_, ?_⟩
  · intro pre post rl X hpre hpost hrl
    have h1 : check_redirect (pre ++ rl :: post) none 0 0 =
        check_redirect post (some (X, MAX_LAT)) (0 + (pc_values pre).length) 1 := by
      rw [check_pre_run pre (rl :: post) 0 0 hpre, check_redirect, hrl]
    rw [h1]
    exact check_post_run post X (0 + (pc_values pre).length) 1 hpost MAX_LAT
      (by norm_num [MAX_LAT])
  · intro l rest X b t r hred hpc
    rw [check_redirect, hred]
    simp only []
    rw [hpc]
  · intro l rest X pc b t r hred hpc hne hb
    rw [check_redirect, hred]
    simp only []
    rw [hpc]
    simp only [if_neg hne, if_neg hb]
  · intro l rest X b t r hred hpc
    rw [check_redirect, hred]
    simp only []
    rw [hpc]
    simp

/-- Witness for C9: one `REDIRECT to=00000040` followed by four decoded-PC
lines none of which carries `PC=00000040` — the validator fails citing the
pending target `0x40` when the fourth non-matching PC line exhausts the
budget. -/
theorem C9_redirect_witness :
    check_redirect ("REDIRECT to=00000040".toList ::
        ["PC=00000000 op=13".toList, "PC=00000004 op=13".toList,
         "PC=00000008 op=13".toList, "PC=0000000c op=13".toList]) none 0 0 =
      .failBudget 0x40 := by
  have h := C9_redirect.1 [] ["PC=00000000 op=13".toList, "PC=00000004 op=13".toList,
      "PC=00000008 op=13".toList, "PC=0000000c op=13".toList]
      ("REDIRECT to=00000040".toList) 0x40 (by decide) (by decide) (by decide)
  refine (h.2 ?_).1 ?_
  · intro i hi
    simp only [MAX_LAT] at hi
    have hi' : i ≤ 3 := by exact_mod_cast hi
    interval_cases i <;> decide
  · decide

end RV
